import Mathlib

/-!
Verification of the nexart-canonical-renderer core against its specification.

This file gives a shallow embedding, in Lean 4, of the deterministic core of
the repository: the JSON canonicalizers (`src/attest.js` `canonicalJson` and
the attestation module's recursive `canonicalize`), the hash-role helpers
(`computeInputHash`, `computeCertificateHash`), the CodeMode bundle verifier
(`verifyBundle`), the seeded random number generator (`createSeededRNG` from
`src/render-loop.js`, `random` from `src/runtime-p5.js`), the lenient VAR
normalization (`src/render-loop.js` and the `createP5Runtime` clamp), and the
loop-mode frame sequencer's control flow and scratch-directory lifecycle
(`renderLoop` from `src/render-loop.js` and the duplicated legacy variant
that has no cleanup).

JavaScript values are modelled by the mutual inductive `JsVal`; JavaScript
numbers by `JsNum` (a finite double is represented by its exact rational
value; `NaN` and the infinities are explicit constructors).  The two pieces
of platform behaviour the canonicalizers delegate to the JS runtime - the
JSON string-quoting function and the JSON numeric-literal printer - and the
external SHA-256 digest are abstracted into a `JsPrims` record; every theorem
below is universally quantified over it, because no claim depends on the
internals of those primitives.  Concrete instances (`prC`) faithful on the
inputs actually used are provided for closed witnesses.
-/

/-- A JavaScript number: a finite double (represented by its exact rational
value - every finite double is a rational), `NaN`, or a signed infinity. -/
inductive JsNum where
  | fin (q : ℚ)
  | nan
  | inf (neg : Bool)
deriving DecidableEq

mutual
/-- A JavaScript (JSON-like) value: `null`, `undefined`, booleans, numbers,
strings, arrays and plain objects.  Objects are field lists in insertion
order; real JS objects never have duplicate keys, which the well-formedness
predicate `wfV` captures. -/
inductive JsVal where
  | vNull : JsVal
  | vUndef : JsVal
  | vBool : Bool → JsVal
  | vNum : JsNum → JsVal
  | vStr : String → JsVal
  | vArr : JsList → JsVal
  | vObj : JsFields → JsVal
/-- Array elements, as a mutual inductive list (keeps all recursion
structural, hence kernel-computable). -/
inductive JsList where
  | lnil : JsList
  | lcons : JsVal → JsList → JsList
/-- Object fields in insertion order. -/
inductive JsFields where
  | fnil : JsFields
  | fcons : String → JsVal → JsFields → JsFields
end

open JsVal JsList JsFields JsNum

/-- Build a `JsList` from a Lean list (for readable concrete inputs). -/
def JsList.ofList : List JsVal → JsList
  | [] => lnil
  | x :: xs => lcons x (JsList.ofList xs)

/-- Build a `JsFields` from a Lean association list (insertion order). -/
def JsFields.ofList : List (String × JsVal) → JsFields
  | [] => fnil
  | (k, v) :: fs => fcons k v (JsFields.ofList fs)

/-- Keys of an object in insertion order (`Object.keys`).  Note that
`Object.keys` lists a property whose value is `undefined`: the property
exists. -/
def fieldKeys : JsFields → List String
  | fnil => []
  | fcons k _ fs => k :: fieldKeys fs

/-- Property lookup on a field list (first match; real JS objects have
unique keys, so this is exact on well-formed values). -/
def lookupField : JsFields → String → Option JsVal
  | fnil, _ => none
  | fcons k v fs, k' => if k = k' then some v else lookupField fs k'

/-- Number of elements of a `JsList`. -/
def jsLength : JsList → Nat
  | lnil => 0
  | lcons _ xs => jsLength xs + 1

/-- Element at an index (JS indexing; out of range gives `undefined`). -/
def jsIndex : JsList → Nat → Option JsVal
  | lnil, _ => none
  | lcons x _, 0 => some x
  | lcons _ xs, n + 1 => jsIndex xs n

/-- JavaScript truthiness. -/
def truthy : JsVal → Bool
  | vNull => false
  | vUndef => false
  | vBool b => b
  | vNum (fin q) => decide (q ≠ 0)
  | vNum nan => false
  | vNum (inf _) => true
  | vStr s => decide (s ≠ "")
  | vArr _ => true
  | vObj _ => true

/-- `typeof v === "string"`. -/
def isStringV : JsVal → Bool
  | vStr _ => true
  | _ => false

/-- `typeof v === "object"` (true for `null`, arrays and plain objects). -/
def isObjectTypeV : JsVal → Bool
  | vNull => true
  | vArr _ => true
  | vObj _ => true
  | _ => false

/-- `v === undefined || v === null`. -/
def isNullish : JsVal → Bool
  | vNull => true
  | vUndef => true
  | _ => false

/-- `v === undefined`. -/
def isUndefV : JsVal → Bool
  | vUndef => true
  | _ => false

/-- `Array.isArray(v)`. -/
def isArrayV : JsVal → Bool
  | vArr _ => true
  | _ => false

/-- Property access `v[k]` for a string key: `undefined` when absent or when
`v` is not a plain object (the string keys used below are never numeric
indices, so array/string index properties do not arise). -/
def jsGet : JsVal → String → JsVal
  | vObj fs, k => (lookupField fs k).getD vUndef
  | _, _ => vUndef

/-- Code-unit comparison of strings, as `Array.prototype.sort`'s default
comparator uses (kernel-computable, unlike the builtin `String` order).
Key strings in this development are ASCII, where code-unit order, code-point
order and this order all agree. -/
def charListLe : List Char → List Char → Bool
  | [], _ => true
  | _ :: _, [] => false
  | a :: as, b :: bs =>
    if a.toNat < b.toNat then true
    else if b.toNat < a.toNat then false
    else charListLe as bs

/-- Lexicographic `≤` on strings by code units. -/
def keyLe (a b : String) : Bool := charListLe a.data b.data

/-- `Object.keys(obj).sort()`: lexicographic sort of the key list. -/
def sortKeys (l : List String) : List String :=
  List.insertionSort (fun a b => keyLe a b = true) l

/-- `entries.join(",")`. -/
def joinComma : List String → String
  | [] => ""
  | [s] => s
  | s :: rest => s ++ "," ++ joinComma rest

/-- The platform primitives the canonicalizers delegate to: the JSON
string-quoting function (`JSON.stringify` on a string), the JSON numeric
literal printer (`JSON.stringify` on a finite number), and the SHA-256 hex
digest (`crypto.createHash("sha256")`).  All theorems are stated for every
such record. -/
structure JsPrims where
  numLit : ℚ → String
  strLit : String → String
  sha256 : String → String

/-- Display of a `JsNum` in a template literal (only used inside error
message strings). -/
def jsNumDisplay : JsNum → String
  | fin q => if q.den = 1 then toString q.num else toString q
  | nan => "NaN"
  | inf false => "Infinity"
  | inf true => "-Infinity"

/-- Walk the sorted key list over the keyed rendering: skip dropped keys,
emit `JSON.stringify(key) + ":" + canonicalize(val)` otherwise, propagating
the first error (which, the keys being sorted, is the first error in sorted
key order, as in the source). -/
def collectEntries (pr : JsPrims) : List String → List (String × Option (Except String String)) → Except String (List String)
  | [], _ => .ok []
  | k :: ks, r =>
    match List.lookup k r with
    | some (some (.error e)) => .error e
    | some (some (.ok s)) =>
      match collectEntries pr ks r with
      | .error e => .error e
      | .ok rest => .ok ((pr.strLit k ++ ":" ++ s) :: rest)
    | _ => collectEntries pr ks r

mutual
/-- The recursive canonicalizer `canonicalize` of the attestation module
(unnamed part_005, lines 123-155), which is also, clause for clause, the
`canon` of spec section 4.5: `null` / booleans / finite numbers / strings
to their JSON literals, a thrown error on non-finite numbers, arrays
bracketed in element order, objects with keys sorted and `undefined`-valued
keys dropped.  The object branch of the source first sorts
`Object.keys(value)`, then serializes `value[key]` per key; since
`canonicalize` is pure, we equivalently render each field once
(`canonicalizeFields`, in insertion order) and then walk the sorted key
list over that keyed rendering (`collectEntries`), which keeps the
recursion structural.  The first error in sorted key order propagates,
exactly as the thrown exception does in the source. -/
def canonicalize (pr : JsPrims) : JsVal → Except String String
  | vNull => .ok "null"
  | vUndef => .error "Unsupported type for canonical JSON: undefined"
  | vBool b => .ok (cond b "true" "false")
  | vNum (fin q) => .ok (pr.numLit q)
  | vNum n =>
    .error ("Non-finite number not allowed in canonical JSON: " ++ jsNumDisplay n)
  | vStr s => .ok (pr.strLit s)
  | vArr xs =>
    match canonicalizeList pr xs with
    | .error e => .error e
    | .ok items => .ok ("[" ++ joinComma items ++ "]")
  | vObj fs =>
    let rendered := canonicalizeFields pr fs
    let keys := sortKeys (rendered.map Prod.fst)
    match collectEntries pr keys rendered with
    | .error e => .error e
    | .ok entries => .ok ("\x7b" ++ joinComma entries ++ "\x7d")
/-- `value.map(item => canonicalize(item))`: element results in order, first
thrown error propagating. -/
def canonicalizeList (pr : JsPrims) : JsList → Except String (List String)
  | lnil => .ok []
  | lcons x xs =>
    match canonicalize pr x with
    | .error e => .error e
    | .ok s =>
      match canonicalizeList pr xs with
      | .error e => .error e
      | .ok rest => .ok (s :: rest)
/-- Per-field rendering, in insertion order: `none` marks an
`undefined`-valued key (dropped by the serialization), otherwise the
`canonicalize` result of the value. -/
def canonicalizeFields (pr : JsPrims) : JsFields → List (String × Option (Except String String))
  | fnil => []
  | fcons k v fs =>
    (k, match v with
        | vUndef => none
        | v' => some (canonicalize pr v')) :: canonicalizeFields pr fs
end

/-- The per-field entry of `canonicalizeFields` (named so lemmas can speak
about one field's rendering). -/
def canonEntry (pr : JsPrims) (v : JsVal) : Option (Except String String) :=
  match v with
  | vUndef => none
  | v' => some (canonicalize pr v')

/-- Member collection for `JSON.stringify` with a property list `P`: walk `P`
in order, include `strLit(key) + ":" + value` for keys present with a
defined (serializable) value, silently skip the rest.  Nested object keys
not in `P` are thereby dropped - the crucial semantics of an array
replacer. -/
def collectMembers (pr : JsPrims) : List String → List (String × Option String) → List String
  | [], _ => []
  | k :: ks, r =>
    match List.lookup k r with
    | some (some s) => (pr.strLit k ++ ":" ++ s) :: collectMembers pr ks r
    | _ => collectMembers pr ks r

mutual
/-- `JSON.stringify(v, P)` for a fixed property list `P` (ECMA-262
SerializeJSONProperty):  `undefined` becomes `"null"` in the one position it
can appear below the root (array elements); non-finite numbers are coerced
to `"null"`, never an error; arrays serialize every element regardless of
`P`; objects serialize exactly the keys of `P`, in `P`'s order, skipping
keys that are absent or `undefined`-valued.  As with `canonicalize`, the
per-field results are precomputed in insertion order
(`stringifyFieldsWith`) and then selected through `P` (`collectMembers`);
the function is pure, so this matches the source's per-key lookup
exactly. -/
def stringifyWith (pr : JsPrims) (P : List String) : JsVal → String
  | vNull => "null"
  | vUndef => "null"
  | vBool b => cond b "true" "false"
  | vNum (fin q) => pr.numLit q
  | vNum _ => "null"
  | vStr s => pr.strLit s
  | vArr xs => "[" ++ joinComma (stringifyListWith pr P xs) ++ "]"
  | vObj fs => "\x7b" ++ joinComma (collectMembers pr P (stringifyFieldsWith pr P fs)) ++ "\x7d"
/-- Array elements under `JSON.stringify`: all serialized, in order. -/
def stringifyListWith (pr : JsPrims) (P : List String) : JsList → List String
  | lnil => []
  | lcons x xs => stringifyWith pr P x :: stringifyListWith pr P xs
/-- Keyed rendering of an object's fields under `JSON.stringify`:
`none` marks an `undefined`-valued key (skipped). -/
def stringifyFieldsWith (pr : JsPrims) (P : List String) : JsFields → List (String × Option String)
  | fnil => []
  | fcons k v fs =>
    (k, match v with
        | vUndef => none
        | v' => some (stringifyWith pr P v')) :: stringifyFieldsWith pr P fs
end

/-- The per-field entry of `stringifyFieldsWith`. -/
def strEntry (pr : JsPrims) (P : List String) (v : JsVal) : Option String :=
  match v with
  | vUndef => none
  | v' => some (stringifyWith pr P v')

/-- Index key strings `["0", "1", …]` (for `Object.keys` of arrays and
strings). -/
def indexKeys (n : Nat) : List String := (List.range n).map toString

/-- `Object.keys(v)`: `none` models the `TypeError` thrown on `null` and
`undefined`; arrays and strings yield their index keys, other primitives
yield `[]`, objects their own keys in insertion order. -/
def objectKeys : JsVal → Option (List String)
  | vNull => none
  | vUndef => none
  | vBool _ => some []
  | vNum _ => some []
  | vStr s => some (indexKeys s.length)
  | vArr xs => some (indexKeys (jsLength xs))
  | vObj fs => some (fieldKeys fs)

/-- `canonicalJson(obj)` of `src/attest.js` (lines 3-5):
`JSON.stringify(obj, Object.keys(obj).sort())`.  The error case is the
`TypeError` of `Object.keys` on `null`/`undefined`.  Note the property list
is computed once, from the top-level keys only, yet filters keys at every
nesting level. -/
def canonicalJson (pr : JsPrims) (v : JsVal) : Except String String :=
  match objectKeys v with
  | none => .error "TypeError: Cannot convert undefined or null to object"
  | some ks => .ok (stringifyWith pr (sortKeys ks) v)

/-- `canonicalJson` specialized to a plain object argument, where it never
throws (every call site in `src/attest.js` passes an object literal). -/
def canonicalJsonObj (pr : JsPrims) (fs : JsFields) : String :=
  stringifyWith pr (sortKeys (fieldKeys fs)) (vObj fs)

/-- `computeInputHash(snapshot)` of `src/attest.js` (lines 21-25):
destructure `code`, `seed`, `vars` from the snapshot and hash the
canonical JSON of the object literal `{code, seed, vars}`. -/
def computeInputHash (pr : JsPrims) (snapshot : JsVal) : String :=
  pr.sha256 (canonicalJsonObj pr
    (fcons "code" (jsGet snapshot "code")
      (fcons "seed" (jsGet snapshot "seed")
        (fcons "vars" (jsGet snapshot "vars") fnil))))

/-- The object literal `{bundleType, createdAt, snapshot, version}` built by
`computeCertificateHash` (collected as a named definition so theorems can
speak about its canonical bytes). -/
def certPayloadFields (bundleType createdAt snapshot version : JsVal) : JsFields :=
  fcons "bundleType" bundleType
    (fcons "createdAt" createdAt
      (fcons "snapshot" snapshot
        (fcons "version" version fnil)))

/-- `computeCertificateHash({bundleType, version, createdAt, snapshot})` of
`src/attest.js` (lines 11-14): hash the canonical JSON of the object
literal `{bundleType, createdAt, snapshot, version}`. -/
def computeCertificateHash (pr : JsPrims) (bundleType version createdAt snapshot : JsVal) : String :=
  pr.sha256 (canonicalJsonObj pr (certPayloadFields bundleType createdAt snapshot version))

/-- Lower-case hex digit test, for the 64-hex-character regular expression. -/
def isHexLowerChar (c : Char) : Bool :=
  (97 ≤ c.toNat && c.toNat ≤ 102) || (48 ≤ c.toNat && c.toNat ≤ 57)

/-- `isValidSha256(hash)` of `src/attest.js` (lines 69-71): a string
matching `^[a-f0-9]{64}$`. -/
def isValidSha256 : JsVal → Bool
  | vStr s => s.length == 64 && s.data.all isHexLowerChar
  | _ => false

/-- One entry of the `mismatches` array returned by `verifyBundle`:
`{field, expected, computed}`. -/
structure Mismatch where
  field : String
  expected : String
  computed : String
deriving DecidableEq

/-- The result object of `verifyBundle`.  The source returns objects with
different key sets per branch; absent keys are modelled by `[]` / `none`. -/
structure VerifyResult where
  valid : Bool
  errors : List String
  mismatches : List Mismatch
  certificateHash : Option String
  inputHash : Option String
deriving DecidableEq

/-- An error return `{valid:false, errors}`. -/
def VerifyResult.ofErrors (es : List String) : VerifyResult :=
  ⟨false, es, [], none, none⟩

/-- Strict equality of a JS value with a freshly computed string
(`hash !== recomputed`).  At its use sites the value has already passed the
`isValidSha256` format check, hence is a string. -/
def jsStrEq (v : JsVal) (s : String) : Bool :=
  match v with
  | vStr t => t == s
  | _ => false

/-- Read a JS string value (used where the source has already established
the value is a string). -/
def jsAsString : JsVal → String
  | vStr s => s
  | _ => ""

/-- `verifyBundle(bundle)` of `src/attest.js` (lines 73-160), translated
branch by branch: the object check; the `bundleType`/`version`/`createdAt`
requirements; the snapshot object check with its early return; the
`snapshot.code`/`snapshot.seed`/`snapshot.vars` requirements; the
format checks on the three optional hashes (only when present); the early
error return; then recomputation of `inputHash` and `certificateHash`,
with one `mismatches` entry per present-and-different hash (input first,
certificate second), and the final valid result carrying
`certificateHash || recomputedCertHash` and `inputHash ||
recomputedInputHash`. -/
def verifyBundle (pr : JsPrims) (bundle : JsVal) : VerifyResult :=
  if !(truthy bundle && isObjectTypeV bundle) then
    .ofErrors ["bundle is required and must be an object"]
  else
    let bundleType := jsGet bundle "bundleType"
    let version := jsGet bundle "version"
    let createdAt := jsGet bundle "createdAt"
    let snapshot := jsGet bundle "snapshot"
    let certificateHash := jsGet bundle "certificateHash"
    let inputHash := jsGet bundle "inputHash"
    let outputHash := jsGet bundle "outputHash"
    let errs1 :=
      (if !(truthy bundleType && isStringV bundleType) then
        ["bundleType is required and must be a string"] else []) ++
      (if !(truthy version && isStringV version) then
        ["version is required and must be a string"] else []) ++
      (if !(truthy createdAt && isStringV createdAt) then
        ["createdAt is required and must be an ISO string"] else [])
    if !(truthy snapshot && isObjectTypeV snapshot) then
      .ofErrors (errs1 ++ ["snapshot is required and must be an object"])
    else
      let errs2 := errs1 ++
        (if !(truthy (jsGet snapshot "code") && isStringV (jsGet snapshot "code")) then
          ["snapshot.code is required and must be a string"] else []) ++
        (if isNullish (jsGet snapshot "seed") then
          ["snapshot.seed is required"] else []) ++
        (if !(isArrayV (jsGet snapshot "vars")) then
          ["snapshot.vars is required and must be an array"] else []) ++
        (if !(isUndefV certificateHash) && !(isValidSha256 certificateHash) then
          ["Invalid certificateHash format: must be 64-char hex"] else []) ++
        (if !(isUndefV inputHash) && !(isValidSha256 inputHash) then
          ["Invalid inputHash format: must be 64-char hex"] else []) ++
        (if !(isUndefV outputHash) && !(isValidSha256 outputHash) then
          ["Invalid outputHash format: must be 64-char hex"] else [])
      if !errs2.isEmpty then
        .ofErrors errs2
      else
        let recomputedInputHash := computeInputHash pr snapshot
        let m1 :=
          if truthy inputHash && !(jsStrEq inputHash recomputedInputHash) then
            [Mismatch.mk "inputHash" (jsAsString inputHash) recomputedInputHash]
          else []
        let recomputedCertHash := computeCertificateHash pr bundleType version createdAt snapshot
        let m2 :=
          if truthy certificateHash && !(jsStrEq certificateHash recomputedCertHash) then
            [Mismatch.mk "certificateHash" (jsAsString certificateHash) recomputedCertHash]
          else []
        let mismatches := m1 ++ m2
        if !mismatches.isEmpty then
          ⟨false, ["Hash mismatch"], mismatches, none, none⟩
        else
          ⟨true, [], [],
            some (if truthy certificateHash then jsAsString certificateHash else recomputedCertHash),
            some (if truthy inputHash then jsAsString inputHash else recomputedInputHash)⟩

/-- Hexadecimal digit character (lower case). -/
def hexDigitChar (n : Nat) : Char :=
  if n < 10 then Char.ofNat (48 + n) else Char.ofNat (87 + n)

/-- JSON escaping of one character, per ECMA-262 QuoteJSONString: `"`,
`\`, the named control escapes, `\u00xx` for other control characters,
the character itself otherwise (exact for all code points that are not
lone surrogates). -/
def jsonEscapeChar (c : Char) : String :=
  if c = '"' then "\\\""
  else if c = '\\' then "\\\\"
  else if c = '\n' then "\\n"
  else if c = '\r' then "\\r"
  else if c = '\t' then "\\t"
  else if c.toNat = 8 then "\\b"
  else if c.toNat = 12 then "\\f"
  else if c.toNat < 32 then
    "\\u00" ++ String.mk [hexDigitChar (c.toNat / 16), hexDigitChar (c.toNat % 16)]
  else String.mk [c]

/-- Concrete JSON string quoting (`JSON.stringify` on a string). -/
def strLitC (s : String) : String :=
  "\"" ++ String.join (s.data.map jsonEscapeChar) ++ "\""

/-- Concrete JSON numeric literal printer, exact for integral values (the
only numbers appearing in concrete witnesses); JS prints an integral double
of magnitude below 2^53 in plain decimal, as here. -/
def numLitC (q : ℚ) : String :=
  if q.den = 1 then toString q.num else toString q

/-- Concrete stand-in for the SHA-256 hex digest, used only to instantiate
theorems that hold for every digest function: a constant valid 64-hex
string. -/
def sha256C : String → String := fun _ => String.mk (List.replicate 64 'a')

/-- The concrete primitive record used by closed witnesses. -/
def prC : JsPrims := ⟨numLitC, strLitC, sha256C⟩

/-! ### Seeded number stream (spec section 4.1)

`createSeededRNG` in `src/render-loop.js` (lines 11-19) keeps a 32-bit
state in a closure and returns the next uniform value per call.  All JS
operators involved (`>>>`, `^`, `|`, `Math.imul`, and the additions as seen
through the 32-bit coercions) depend only on the operand residues modulo
2^32, so the embedding tracks the state as a natural number below 2^32,
with an explicit `% 2^32` wherever the 32-bit wrap occurs. -/

/-- Two to the thirty-second, the 32-bit wrap modulus. -/
def U32 : Nat := 4294967296

/-- One step of `createSeededRNG` (`src/render-loop.js` lines 13-18):
updated state and output numerator.
`a += 0x6d2b79f5` (wrapped); `t = Math.imul(a ^ (a >>> 15), a | 1)`;
`t ^= t + Math.imul(t ^ (t >>> 7), t | 61)`; output
`(t ^ (t >>> 14)) >>> 0`. -/
def rngNext (a : Nat) : Nat × Nat :=
  let a2 := (a + 0x6d2b79f5) % U32
  let t1 := ((a2 ^^^ (a2 >>> 15)) * (a2 ||| 1)) % U32
  let t2 := t1 ^^^ ((t1 + (((t1 ^^^ (t1 >>> 7)) * (t1 ||| 61)) % U32)) % U32)
  (a2, t2 ^^^ (t2 >>> 14))

/-- One step of the `random` closure in `src/runtime-p5.js` (lines 12-18),
and of `mulberry32` in the unnamed server parts: textually `1 | s` and
`61 | r` instead of `s | 1` / `t | 61`, otherwise identical. -/
def randomNext (s : Nat) : Nat × Nat :=
  let s2 := (s + 0x6D2B79F5) % U32
  let r1 := ((s2 ^^^ (s2 >>> 15)) * (1 ||| s2)) % U32
  let r2 := r1 ^^^ ((r1 + (((r1 ^^^ (r1 >>> 7)) * (61 ||| r1)) % U32)) % U32)
  (s2, r2 ^^^ (r2 >>> 14))

/-- One step of the reference recurrence exactly as spec section 4.1 words
it: state `s` updates as `s += 0x6D2B79F5 (mod 2^32)`; `r = s XOR (s>>>15)`;
`r = r * (s OR 1) (mod 2^32)`;
`r = r XOR (r + ((r XOR (r>>>7)) * (r OR 61) mod 2^32))`; the returned
numerator is `r XOR (r>>>14)`, all arithmetic wrapping at 32 bits. -/
def specNextUniform (s : Nat) : Nat × Nat :=
  let s' := (s + 0x6D2B79F5) % U32
  let rA := s' ^^^ (s' >>> 15)
  let rB := (rA * (s' ||| 1)) % U32
  let rC := rB ^^^ ((rB + ((rB ^^^ (rB >>> 7)) * (rB ||| 61) % U32)) % U32)
  (s', rC ^^^ (rC >>> 14))

/-- State of `createSeededRNG(seed)` after `n` draws (`seed >>> 0` reduces a
numeric seed modulo 2^32 at creation). -/
def rngState (seed : Nat) : Nat → Nat
  | 0 => seed % U32
  | n + 1 => (rngNext (rngState seed n)).1

/-- Numerator of the `n`-th value drawn (counting from 0). -/
def rngOut (seed : Nat) (n : Nat) : Nat := (rngNext (rngState seed n)).2

/-- The `n`-th value returned by `createSeededRNG(seed)`:
`((t ^ (t >>> 14)) >>> 0) / 4294967296`, as an exact rational. -/
def rngValue (seed : Nat) (n : Nat) : ℚ := (rngOut seed n : ℚ) / (U32 : ℚ)

/-- State after `n` draws for the `runtime-p5.js` closure. -/
def randomState (seed : Nat) : Nat → Nat
  | 0 => seed % U32
  | n + 1 => (randomNext (randomState seed n)).1

/-- Numerator of the `n`-th value of the `runtime-p5.js` closure. -/
def randomOut (seed : Nat) (n : Nat) : Nat := (randomNext (randomState seed n)).2

/-- State after `n` draws of the spec recurrence. -/
def specState (seed : Nat) : Nat → Nat
  | 0 => seed % U32
  | n + 1 => (specNextUniform (specState seed n)).1

/-- Numerator of the `n`-th value of the spec recurrence. -/
def specOut (seed : Nat) (n : Nat) : Nat := (specNextUniform (specState seed n)).2

/-- The `n`-th value of the spec recurrence, `(r XOR (r>>>14)) / 2^32`. -/
def specValue (seed : Nat) (n : Nat) : ℚ := (specOut seed n : ℚ) / (U32 : ℚ)

/-! ### Lenient VAR normalization -/

/-- The per-entry acceptance test of the `renderLoop` normalization loop
(`src/render-loop.js` lines 488-493): the slot receives `v` exactly when
`typeof v === "number" && Number.isFinite(v) && v >= 0 && v <= 100`, and
keeps its prefilled `0` otherwise. -/
def normalizeVarEntry : Option JsVal → ℚ
  | some (vNum (fin q)) => if 0 ≤ q ∧ q ≤ 100 then q else 0
  | _ => 0

/-- `normalizedVars` of `renderLoop` (`src/render-loop.js` lines 486-495):
a 10-slot array prefilled with `0`, slot `i` overwritten by `vars[i]` only
when that entry is a finite number already inside `[0,100]`; a non-array
`vars` leaves all slots `0`. -/
def normalizeVars (vars : JsVal) : List ℚ :=
  match vars with
  | vArr xs => (List.range 10).map (fun i => normalizeVarEntry (jsIndex xs i))
  | _ => List.replicate 10 0

/-- `Math.min`, NaN-propagating, on JS numbers. -/
def jsMin : JsNum → JsNum → JsNum
  | nan, _ => nan
  | _, nan => nan
  | inf false, b => b
  | a, inf false => a
  | inf true, _ => inf true
  | _, inf true => inf true
  | fin a, fin b => fin (min a b)

/-- `Math.max`, NaN-propagating, on JS numbers. -/
def jsMax : JsNum → JsNum → JsNum
  | nan, _ => nan
  | _, nan => nan
  | inf true, b => b
  | a, inf true => a
  | inf false, _ => inf false
  | _, inf false => inf false
  | fin a, fin b => fin (max a b)

/-- The `createP5Runtime` VAR clamp of the unnamed runtime (part_009 lines
109-114): `VAR[i] = Math.max(0, Math.min(100, vars[i] ?? 0))` for `i` below
`min(vars.length, 10)`, slots beyond staying `0`.  `?? 0` replaces only
`null`/`undefined`; numeric coercion of non-number entries is not modelled
(the claim concerns numeric entries). -/
def clampVarP9 : Option JsVal → JsNum
  | none => fin 0
  | some v =>
    let base : JsNum :=
      match v with
      | vNull => fin 0
      | vUndef => fin 0
      | vNum n => n
      | _ => nan
    jsMax (fin 0) (jsMin (fin 100) base)

/-- The full 10-slot VAR array of `createP5Runtime` (part_009). -/
def normalizeVarsP9 (vars : JsVal) : List JsNum :=
  match vars with
  | vArr xs => (List.range 10).map (fun i => clampVarP9 (jsIndex xs i))
  | _ => List.replicate 10 (fin 0)

/-! ### Loop-mode frame sequencer (spec section 4.4)

`renderLoop` in `src/render-loop.js` (lines 464-573) and the duplicated
legacy variant (the second `renderLoop`, without any cleanup) are embedded
as state-passing functions.  The filesystem effect that the claims are
about - the scratch directory and the frame files inside it - is the
explicit state: `none` means no scratch directory exists, `some files`
means the directory exists and holds exactly `files`.  Artist code and the
external encoder are oracles. -/

/-- Outcome of `extractFunctions(code)` (the regex scrape of
`src/render-loop.js` lines 412-424) together with the behaviour of the
extracted artist functions and of the external `ffmpeg` process. -/
structure LoopEnv where
  hasSetup : Bool
  hasDraw : Bool
  setupThrows : Bool
  drawThrows : Nat → Bool
  encodeExitCode : Nat
  videoSize : Nat

/-- The errors `renderLoop` can surface: the thrown
`LOOP_MODE_ERROR` strings, an exception escaping artist code, and the
rejected promise of a non-zero `ffmpeg` exit. -/
inductive LoopError where
  | loopModeError (msg : String)
  | artistError
  | encodeError (exitCode : Nat)
deriving DecidableEq

/-- The successful render result (the fields the claims mention). -/
structure LoopOk where
  frames : Nat
  width : Nat
  height : Nat
deriving DecidableEq

/-- `String(frame).padStart(5, "0")`. -/
def padStart5 (n : Nat) : String :=
  let s := toString n
  String.mk (List.replicate (5 - s.length) '0') ++ s

/-- Frame file name `frame_00000.png`, `frame_00001.png`, … -/
def frameFileName (n : Nat) : String := "frame_" ++ padStart5 n ++ ".png"

/-- The frame loop (`src/render-loop.js` lines 523-539): run `draw` for
frames `i, i+1, …` while `count` remain; an exception escaping `draw` at
some frame aborts the loop, keeping the files already written.  Returns
the error, if any, and the files written. -/
def runFrames (env : LoopEnv) : Nat → Nat → Option LoopError × List String
  | _, 0 => (none, [])
  | i, count + 1 =>
    if env.drawThrows i then (some .artistError, [])
    else
      let rest := runFrames env (i + 1) count
      (rest.1, frameFileName i :: rest.2)

/-- The `!totalFrames || totalFrames < 2` guard (`src/render-loop.js`
line 471): the call survives it exactly when `totalFrames` is present,
truthy and at least 2. -/
def totalFramesOk : Option ℚ → Bool
  | none => false
  | some q => !(q == 0) && !(decide (q < 2))

/-- Number of loop iterations `for (frame = 0; frame < totalFrames; …)`
performs (the claims only exercise integral frame counts). -/
def framesCount : Option ℚ → Nat
  | none => 0
  | some q => q.ceil.toNat

/-- Body of the `try` block of `renderLoop` (`src/render-loop.js` lines
482-562), from just after `fs.mkdtempSync`: the draw-function check, the
`setup` call, the frame loop, the encode step (non-zero exit rejects),
the too-small-video check, and the success result.  Returns the outcome
and the files accumulated in the scratch directory at the moment control
leaves the block. -/
def renderLoopBody (tf : Option ℚ) (env : LoopEnv) : Except LoopError LoopOk × List String :=
  if !env.hasDraw then
    (.error (.loopModeError "LOOP_MODE_ERROR: draw() function required for loop mode"), [])
  else if env.hasSetup && env.setupThrows then
    (.error .artistError, [])
  else
    let fr := runFrames env 0 (framesCount tf)
    match fr.1 with
    | some e => (.error e, fr.2)
    | none =>
      if env.encodeExitCode ≠ 0 then
        (.error (.encodeError env.encodeExitCode), fr.2)
      else
        let files := fr.2 ++ ["out.mp4"]
        if env.videoSize < 1000 then
          (.error (.loopModeError "LOOP_MODE_ERROR: Video encoding produced invalid output (too small)"), files)
        else
          (.ok ⟨framesCount tf, 1950, 2400⟩, files)

/-- `renderLoop` of `src/render-loop.js` (lines 464-573).  The
`totalFrames` guard throws before `fs.mkdtempSync`, so no scratch
directory exists on that exit; every later exit, success or failure, runs
the `finally` block (lines 563-572), which unlinks every file and removes
the directory.  The second component is the scratch directory state after
the call. -/
def renderLoop (tf : Option ℚ) (env : LoopEnv) : Except LoopError LoopOk × Option (List String) :=
  if !(totalFramesOk tf) then
    (.error (.loopModeError "LOOP_MODE_ERROR: totalFrames must be >= 2 for loop mode"), none)
  else
    let body := renderLoopBody tf env
    (body.1, none)

/-- The frame loop of the legacy variant (`f_0.png`, `f_1.png`, …). -/
def runFramesVariant (env : LoopEnv) : Nat → Nat → Option LoopError × List String
  | _, 0 => (none, [])
  | i, count + 1 =>
    if env.drawThrows i then (some .artistError, [])
    else
      let rest := runFramesVariant env (i + 1) count
      (rest.1, ("f_" ++ toString i ++ ".png") :: rest.2)

/-- The duplicated legacy `renderLoop` (second copy in
`src/render-loop.js`, lines 588-639): no `totalFrames` guard, no `draw`
check, and - decisive here - no `finally`: the scratch directory and its
files are left in place on success and on failure alike. -/
def renderLoopVariant (totalFrames : Nat) (env : LoopEnv) : Except LoopError LoopOk × Option (List String) :=
  let fr := runFramesVariant env 0 totalFrames
  match fr.1 with
  | some e => (.error e, some fr.2)
  | none =>
    if env.encodeExitCode ≠ 0 then
      (.error (.encodeError env.encodeExitCode), some fr.2)
    else
      (.ok ⟨totalFrames, 1950, 2400⟩, some (fr.2 ++ ["out.mp4"]))

/-! ### Well-formedness, non-finite content, and recursive key-sorting -/

/-- Membership test on a key list. -/
def keyMem (k : String) : List String → Bool
  | [] => false
  | k' :: ks => k = k' || keyMem k ks

/-- No duplicate keys. -/
def nodupKeys : List String → Bool
  | [] => true
  | k :: ks => !(keyMem k ks) && nodupKeys ks

mutual
/-- Well-formed JS value: no object, at any depth, has duplicate keys
(true of every value a JS program can construct). -/
def wfV : JsVal → Bool
  | vNull => true
  | vUndef => true
  | vBool _ => true
  | vNum _ => true
  | vStr _ => true
  | vArr xs => wfL xs
  | vObj fs => nodupKeys (fieldKeys fs) && wfF fs
def wfL : JsList → Bool
  | lnil => true
  | lcons x xs => wfV x && wfL xs
def wfF : JsFields → Bool
  | fnil => true
  | fcons _ v fs => wfV v && wfF fs
end

mutual
/-- Does the value contain a non-finite number anywhere? -/
def hasNonFiniteV : JsVal → Bool
  | vNum nan => true
  | vNum (inf _) => true
  | vArr xs => hasNonFiniteL xs
  | vObj fs => hasNonFiniteF fs
  | _ => false
def hasNonFiniteL : JsList → Bool
  | lnil => false
  | lcons x xs => hasNonFiniteV x || hasNonFiniteL xs
def hasNonFiniteF : JsFields → Bool
  | fnil => false
  | fcons _ v fs => hasNonFiniteV v || hasNonFiniteF fs
end

/-- Insert a field into a field list sorted by key (ascending, duplicates
kept after). -/
def insertFieldSorted (k : String) (v : JsVal) : JsFields → JsFields
  | fnil => fcons k v fnil
  | fcons k' v' fs =>
    if keyLe k k' then fcons k v (fcons k' v' fs)
    else fcons k' v' (insertFieldSorted k v fs)

mutual
/-- Recursively sort every object's fields by key.  Two values are
"structurally equal up to the insertion order of object keys" - the
relation of spec section 8's order-independence property - exactly when
their recursive sorts coincide (for well-formed values). -/
def sortV : JsVal → JsVal
  | vNull => vNull
  | vUndef => vUndef
  | vBool b => vBool b
  | vNum n => vNum n
  | vStr s => vStr s
  | vArr xs => vArr (sortL xs)
  | vObj fs => vObj (sortF fs)
def sortL : JsList → JsList
  | lnil => lnil
  | lcons x xs => lcons (sortV x) (sortL xs)
def sortF : JsFields → JsFields
  | fnil => fnil
  | fcons k v fs => insertFieldSorted k (sortV v) (sortF fs)
end

/-- Association-list view of a field list (for permutation lemmas). -/
def fieldsToList : JsFields → List (String × JsVal)
  | fnil => []
  | fcons k v fs => (k, v) :: fieldsToList fs


/-- A snapshot object `{code, seed, vars, …}` in the field order the SDK
emits; `more` holds any further snapshot fields (`mode`, `totalFrames`,
`fps`, …). -/
def mkSnapshot (c : String) (seedv : JsVal) (vs : JsList) (more : JsFields) : JsVal :=
  vObj (fcons "code" (vStr c) (fcons "seed" seedv (fcons "vars" (vArr vs) more)))

/-- A CodeMode bundle object `{bundleType, version, createdAt, snapshot, …}`;
`hashes` holds whichever of `inputHash` / `certificateHash` / `outputHash`
the caller supplied. -/
def mkBundle (bt ver ca : String) (snap : JsVal) (hashes : JsFields) : JsVal :=
  vObj (fcons "bundleType" (vStr bt)
    (fcons "version" (vStr ver)
      (fcons "createdAt" (vStr ca)
        (fcons "snapshot" snap hashes))))

/-- A primitive value that serializes identically under both canonicalizers
(also as an array element): `null`, booleans, finite numbers, strings. -/
def flatPrim : JsVal → Bool
  | vNull => true
  | vBool _ => true
  | vNum (fin _) => true
  | vStr _ => true
  | _ => false

/-- Every element a flat primitive. -/
def allFlatPrim : JsList → Bool
  | lnil => true
  | lcons x xs => flatPrim x && allFlatPrim xs

/-- Field values on which the two canonicalizers agree: flat primitives,
`undefined` (the key is dropped by both), and arrays of flat primitives. -/
def flatValOk : JsVal → Bool
  | vUndef => true
  | vArr xs => allFlatPrim xs
  | v => flatPrim v

/-- A flat object: every field value satisfies `flatValOk`. -/
def flatFieldsOk : JsFields → Bool
  | fnil => true
  | fcons _ v fs => flatValOk v && flatFieldsOk fs

/-! ### Concrete example inputs used by witnesses and counterexamples -/

/-- A loop environment where artist code and the encoder behave: `setup` and
`draw` present and throwing nowhere, encoder exits 0, video of 5000 bytes. -/
def envOk : LoopEnv := ⟨true, true, false, fun _ => false, 0, 5000⟩

/-- Same, except the encoder exits with code 1. -/
def envEncodeFail : LoopEnv := ⟨true, true, false, fun _ => false, 1, 5000⟩

/-- The 10-item vars array `[150, -5, 0, 0, 0, 0, 0, 0, 0, 0]` of the spec's
VAR-normalization example. -/
def exVarsList : JsList := JsList.ofList
  [vNum (fin 150), vNum (fin (-5)), vNum (fin 0), vNum (fin 0), vNum (fin 0),
   vNum (fin 0), vNum (fin 0), vNum (fin 0), vNum (fin 0), vNum (fin 0)]

/-- Snapshot fields `{code:"A", seed:1, vars:[]}`. -/
def snapFieldsA : JsFields :=
  fcons "code" (vStr "A") (fcons "seed" (vNum (fin 1)) (fcons "vars" (vArr lnil) fnil))

/-- Snapshot fields `{code:"B", seed:1, vars:[]}` - differing from
`snapFieldsA` only in the code. -/
def snapFieldsB : JsFields :=
  fcons "code" (vStr "B") (fcons "seed" (vNum (fin 1)) (fcons "vars" (vArr lnil) fnil))

/-! ## Theorems

Helper lemmas first, then one theorem per claim (with its witness or
counterexample). -/

theorem char_toNat_inj {a b : Char} (h : a.toNat = b.toNat) : a = b :=
  Char.ext (UInt32.toNat.inj h)

theorem charListLe_total : ∀ as bs, charListLe as bs = true ∨ charListLe bs as = true
  | [], _ => Or.inl rfl
  | _ :: _, [] => Or.inr rfl
  | a :: as, b :: bs => by
    rcases Nat.lt_trichotomy a.toNat b.toNat with h | h | h
    · left; simp [charListLe, h]
    · rcases charListLe_total as bs with ih | ih
      · left; simp [charListLe, h, ih]
      · right; simp [charListLe, h.symm, ih]
    · right; simp [charListLe, h]

theorem charListLe_trans : ∀ as bs cs, charListLe as bs = true → charListLe bs cs = true →
    charListLe as cs = true
  | [], _, _ => by intro _ _; rfl
  | _ :: _, [], _ => by intro h _; simp [charListLe] at h
  | _ :: _, _ :: _, [] => by intro _ h; simp [charListLe] at h
  | a :: as, b :: bs, c :: cs => by
    intro h1 h2
    rcases Nat.lt_trichotomy a.toNat b.toNat with hab | hab | hab <;>
      rcases Nat.lt_trichotomy b.toNat c.toNat with hbc | hbc | hbc <;>
      simp_all [charListLe] <;>
      first
        | omega
        | exact charListLe_trans as bs cs h1 h2

theorem charListLe_antisymm : ∀ as bs, charListLe as bs = true → charListLe bs as = true →
    as = bs
  | [], [] => by intro _ _; rfl
  | [], _ :: _ => by intro _ h; simp [charListLe] at h
  | _ :: _, [] => by intro h _; simp [charListLe] at h
  | a :: as, b :: bs => by
    intro h1 h2
    rcases Nat.lt_trichotomy a.toNat b.toNat with hab | hab | hab
    · simp_all [charListLe]; omega
    · have : a = b := char_toNat_inj hab
      subst this
      simp_all [charListLe]
      exact charListLe_antisymm as bs h1 h2
    · simp_all [charListLe]; omega

theorem sortKeys_perm (l : List String) : (sortKeys l).Perm l :=
  List.perm_insertionSort _ l

theorem sortKeys_sorted (l : List String) :
    List.Sorted (fun a b => keyLe a b = true) (sortKeys l) :=
  @List.sorted_insertionSort String _ _
    ⟨fun a b => charListLe_total a.data b.data⟩
    ⟨fun a b c h1 h2 => charListLe_trans a.data b.data c.data h1 h2⟩ l

theorem sortKeys_eq_of_perm {l1 l2 : List String} (h : l1.Perm l2) :
    sortKeys l1 = sortKeys l2 :=
  @List.eq_of_perm_of_sorted String _
    ⟨fun a b h1 h2 => String.ext (charListLe_antisymm a.data b.data h1 h2)⟩ _ _
    ((sortKeys_perm l1).trans (h.trans (sortKeys_perm l2).symm))
    (sortKeys_sorted l1) (sortKeys_sorted l2)

theorem lookup_of_perm_nodup {β : Type} (k : String) :
    ∀ (r1 r2 : List (String × β)), r1.Perm r2 → (r1.map Prod.fst).Nodup →
      List.lookup k r1 = List.lookup k r2 := by
  intro r1 r2 h
  induction h with
  | nil => intro _; rfl
  | cons x _ ih =>
    intro hn
    simp only [List.map_cons, List.nodup_cons] at hn
    obtain ⟨x1, x2⟩ := x
    simp only [List.lookup_cons]
    cases hkx : k == x1 <;> simp [ih hn.2]
  | swap x y l =>
    intro hn
    obtain ⟨x1, x2⟩ := x
    obtain ⟨y1, y2⟩ := y
    simp only [List.map_cons, List.nodup_cons, List.mem_cons] at hn
    have hxy : ¬(y1 = x1) := fun h => hn.1 (Or.inl h)
    simp only [List.lookup_cons]
    cases hky : k == y1 <;> cases hkx : k == x1 <;> simp_all [beq_iff_eq]
  | trans h1 _ ih1 ih2 =>
    intro hn
    rw [ih1 hn, ih2 ((h1.map Prod.fst).nodup_iff.mp hn)]

theorem keyMem_iff (k : String) : ∀ l : List String, keyMem k l = true ↔ k ∈ l
  | [] => by simp [keyMem]
  | k' :: ks => by simp [keyMem, keyMem_iff k ks]

theorem nodupKeys_iff : ∀ l : List String, nodupKeys l = true ↔ l.Nodup
  | [] => by simp [nodupKeys]
  | k :: ks => by
    simp only [nodupKeys, Bool.and_eq_true, Bool.not_eq_true', nodupKeys_iff ks,
      List.nodup_cons]
    constructor
    · rintro ⟨h1, h2⟩
      exact ⟨fun hm => by simp [(keyMem_iff k ks).mpr hm] at h1, h2⟩
    · rintro ⟨h1, h2⟩
      refine ⟨?_, h2⟩
      cases hm : keyMem k ks
      · rfl
      · exact absurd ((keyMem_iff k ks).mp hm) h1

/-! ### C6: the seeded generator implements the reference recurrence -/

theorem randomNext_eq_rngNext (a : Nat) : randomNext a = rngNext a := by
  simp only [randomNext, rngNext, Nat.lor_comm]

theorem rngNext_eq_specNext (a : Nat) : rngNext a = specNextUniform a := rfl

theorem rngState_eq_specState (seed : Nat) : ∀ n, rngState seed n = specState seed n
  | 0 => rfl
  | n + 1 => by
    rw [rngState, specState, rngState_eq_specState seed n, rngNext_eq_specNext]

theorem randomState_eq_rngState (seed : Nat) : ∀ n, randomState seed n = rngState seed n
  | 0 => rfl
  | n + 1 => by
    rw [randomState, rngState, randomState_eq_rngState seed n, randomNext_eq_rngNext]

/-- C6: for every 32-bit seed and call index, the `createSeededRNG` stream of
`src/render-loop.js` equals the reference recurrence of spec section 4.1
(state `s += 0x6D2B79F5 mod 2^32`; `r = s XOR (s>>>15)`;
`r = r*(s OR 1) mod 2^32`; `r = r XOR (r + ((r XOR (r>>>7))*(r OR 61) mod
2^32))`; value `(r XOR (r>>>14)) / 2^32`, all arithmetic wrapping at 32
bits), and the `random` closure of `src/runtime-p5.js` produces the
identical sequence from the same seed. -/
theorem claim_C6 (s0 : Nat) (h : s0 < U32) (n : Nat) :
    rngValue s0 n = specValue s0 n ∧
    rngOut s0 n = specOut s0 n ∧
    randomOut s0 n = rngOut s0 n := by
  have hs := rngState_eq_specState s0 n
  have hr := randomState_eq_rngState s0 n
  refine ⟨?_, ?_, ?_⟩
  · unfold rngValue specValue rngOut specOut
    rw [hs, rngNext_eq_specNext]
  · unfold rngOut specOut
    rw [hs, rngNext_eq_specNext]
  · unfold randomOut rngOut
    rw [hr, randomNext_eq_rngNext]

/-- Witness for C6 at the spec's golden seed `12345`, call index 0, with the
concrete golden numerator `4207900869` (value `4207900869 / 2^32`). -/
theorem claim_C6_witness :
    12345 < U32 ∧
    (rngValue 12345 0 = specValue 12345 0 ∧
     rngOut 12345 0 = specOut 12345 0 ∧
     randomOut 12345 0 = rngOut 12345 0) ∧
    rngOut 12345 0 = 4207900869 :=
  ⟨by decide, claim_C6 12345 (by decide) 0, by decide⟩

/-! ### C7: loop-mode preconditions are hard failures -/

/-- C7: `renderLoop` with `totalFrames` absent, or below 2, or with artist
code containing no `draw` function, fails with a `LOOP_MODE_ERROR` - it
neither falls back to static rendering nor returns a partial result (the
outcome is an `Except.error`, carrying no render data). -/
theorem claim_C7 (tf : Option ℚ) (env : LoopEnv)
    (h : tf = none ∨ (∃ q, tf = some q ∧ q < 2) ∨ env.hasDraw = false) :
    ∃ msg, (renderLoop tf env).1 = Except.error (LoopError.loopModeError msg) := by
  rcases h with h | ⟨q, rfl, hq⟩ | h
  · subst h
    exact ⟨"LOOP_MODE_ERROR: totalFrames must be >= 2 for loop mode", rfl⟩
  · refine ⟨"LOOP_MODE_ERROR: totalFrames must be >= 2 for loop mode", ?_⟩
    have hok : totalFramesOk (some q) = false := by
      simp [totalFramesOk, hq]
    simp [renderLoop, hok]
  · by_cases htf : totalFramesOk tf = true
    · refine ⟨"LOOP_MODE_ERROR: draw() function required for loop mode", ?_⟩
      simp [renderLoop, htf, renderLoopBody, h]
    · refine ⟨"LOOP_MODE_ERROR: totalFrames must be >= 2 for loop mode", ?_⟩
      simp [renderLoop, htf]

/-- Witness for C7: `totalFrames = 1` with well-behaved artist code and
encoder, and separately a 60-frame input whose artist code has no `draw`. -/
theorem claim_C7_witness :
    (∃ msg, (renderLoop (some 1) envOk).1 = Except.error (LoopError.loopModeError msg)) ∧
    (∃ msg, (renderLoop (some 60) ⟨true, false, false, fun _ => false, 0, 5000⟩).1 =
      Except.error (LoopError.loopModeError msg)) :=
  ⟨claim_C7 (some 1) envOk (Or.inr (Or.inl ⟨1, rfl, by norm_num⟩)),
   claim_C7 (some 60) ⟨true, false, false, fun _ => false, 0, 5000⟩ (Or.inr (Or.inr rfl))⟩

/-! ### C8: scratch-directory lifecycle -/

/-- C8 (amended): the primary `renderLoop` of `src/render-loop.js` leaves no
scratch directory behind on any path - the `totalFrames` guard throws
before the directory is created, and every other exit (success, encoder
failure, artist exception, too-small video) runs the `finally` cleanup. -/
theorem claim_C8 (tf : Option ℚ) (env : LoopEnv) : (renderLoop tf env).2 = none := by
  unfold renderLoop
  split <;> rfl

/-- Counterexample to C8 as stated: the duplicated legacy `renderLoop`
variant (same repository, `src/render-loop.js` second copy) leaves the
scratch directory and its frame files in place - even on a fully
successful 2-frame render, and likewise when the encoder fails. -/
theorem claim_C8_cex :
    (renderLoopVariant 2 envOk).2 = some ["f_0.png", "f_1.png", "out.mp4"] ∧
    (renderLoopVariant 2 envOk).2 ≠ none ∧
    (renderLoopVariant 2 envEncodeFail).2 = some ["f_0.png", "f_1.png"] ∧
    (renderLoopVariant 2 envEncodeFail).2 ≠ none := by
  refine ⟨rfl, ?_, rfl, ?_⟩ <;> intro h <;> simp [renderLoopVariant, runFramesVariant, envOk, envEncodeFail] at h

/-! ### C3: lenient VAR normalization -/

/-- C3 (amended): the `renderLoop` lenient normalization produces a 10-slot
array that keeps an entry only when it is a finite number already inside
`[0,100]` and writes `0` otherwise - out-of-range entries like `150` and
`-5` become `0` (they are not clamped to the nearer bound), non-finite
entries become `0`, and the path is total (no input is rejected).  The
`createP5Runtime` clamp of the unnamed runtime, by contrast, does clamp
(`150 ↦ 100`, `-5 ↦ 0`) but propagates `NaN` instead of replacing it
with 0. -/
theorem claim_C3 (xs : JsList) (i : Nat) (hi : i < 10) :
    (normalizeVars (vArr xs)).length = 10 ∧
    (∀ q : ℚ, jsIndex xs i = some (vNum (fin q)) → 0 ≤ q → q ≤ 100 →
      (normalizeVars (vArr xs)).get? i = some q) ∧
    (∀ q : ℚ, jsIndex xs i = some (vNum (fin q)) → (q < 0 ∨ 100 < q) →
      (normalizeVars (vArr xs)).get? i = some 0) ∧
    (jsIndex xs i = some (vNum nan) →
      (normalizeVars (vArr xs)).get? i = some 0) ∧
    clampVarP9 (some (vNum (fin 150))) = fin 100 ∧
    clampVarP9 (some (vNum (fin (-5)))) = fin 0 ∧
    clampVarP9 (some (vNum nan)) = nan := by
  have hget : ∀ f : Nat → ℚ, ((List.range 10).map f).get? i = some (f i) := by
    intro f
    rw [List.get?_map, List.get?_range hi]
    rfl
  refine ⟨by simp [normalizeVars], ?_, ?_, ?_, by decide, by decide, rfl⟩
  · intro q hq h0 h100
    rw [normalizeVars, hget, hq]
    simp [normalizeVarEntry, h0, h100]
  · intro q hq hout
    rw [normalizeVars, hget, hq]
    have : ¬(0 ≤ q ∧ q ≤ 100) := by
      rcases hout with h | h
      · exact fun hc => absurd hc.1 (not_le.mpr h)
      · exact fun hc => absurd hc.2 (not_le.mpr h)
    simp [normalizeVarEntry, this]
  · intro hq
    rw [normalizeVars, hget, hq]
    rfl

/-- Witness for C3's amended statement at the spec example
`[150, -5, 0, …]`: slot 0 (the entry 150) becomes 0, and the legacy clamp
sends 150 to 100. -/
theorem claim_C3_witness :
    (normalizeVars (vArr exVarsList)).length = 10 ∧
    (normalizeVars (vArr exVarsList)).get? 0 = some 0 ∧
    clampVarP9 (some (vNum (fin 150))) = fin 100 :=
  ⟨(claim_C3 exVarsList 0 (by norm_num)).1,
   (claim_C3 exVarsList 0 (by norm_num)).2.2.1 150 rfl (Or.inr (by norm_num)),
   (claim_C3 exVarsList 0 (by norm_num)).2.2.2.2.1⟩

/-- Counterexample to C3 as stated: on the 10-item input `[150, -5, …]` the
`renderLoop` normalization produces an array beginning `[0, 0, …]`, not
`[100, 0, …]` - the out-of-range entry 150 is replaced by 0, not clamped
to 100. -/
theorem claim_C3_cex :
    (normalizeVars (vArr exVarsList)).get? 0 = some 0 ∧
    (normalizeVars (vArr exVarsList)).get? 0 ≠ some 100 := by
  constructor
  · rfl
  · decide

/-! ### C10: caller-supplied hashes are optional -/

/-- C10: a CodeMode bundle that passes field validation (string
`bundleType`, `version`, `createdAt`; snapshot with string `code`,
non-nullish `seed`, array `vars`) and carries none of `certificateHash`,
`inputHash`, `outputHash` verifies with no hash comparison:
`valid:true`, with `certificateHash` and `inputHash` set to the values
recomputed from the bundle itself. -/
theorem claim_C10 (pr : JsPrims) (bt ver ca c : String) (seedv : JsVal)
    (vs : JsList) (more : JsFields)
    (hbt : bt ≠ "") (hver : ver ≠ "") (hca : ca ≠ "") (hc : c ≠ "")
    (hseed : isNullish seedv = false) :
    verifyBundle pr (mkBundle bt ver ca (mkSnapshot c seedv vs more) fnil) =
      ⟨true, [], [],
        some (computeCertificateHash pr (vStr bt) (vStr ver) (vStr ca)
          (mkSnapshot c seedv vs more)),
        some (computeInputHash pr (mkSnapshot c seedv vs more))⟩ := by
  simp [verifyBundle, mkBundle, mkSnapshot, jsGet, lookupField, truthy, isStringV,
    isObjectTypeV, isUndefV, isArrayV, isValidSha256, jsStrEq, jsAsString,
    hbt, hver, hca, hc, hseed, VerifyResult.ofErrors]

/-- Witness for C10 at a concrete hash-free bundle. -/
theorem claim_C10_witness :
    verifyBundle prC (mkBundle "cer.codemode.v1" "1.0.0" "2025-01-01T00:00:00.000Z"
        (mkSnapshot "code" (vNum (fin 1)) lnil fnil) fnil) =
      ⟨true, [], [],
        some (computeCertificateHash prC (vStr "cer.codemode.v1") (vStr "1.0.0")
          (vStr "2025-01-01T00:00:00.000Z") (mkSnapshot "code" (vNum (fin 1)) lnil fnil)),
        some (computeInputHash prC (mkSnapshot "code" (vNum (fin 1)) lnil fnil))⟩ :=
  claim_C10 prC "cer.codemode.v1" "1.0.0" "2025-01-01T00:00:00.000Z" "code"
    (vNum (fin 1)) lnil fnil (by decide) (by decide) (by decide) (by decide) rfl

/-! ### C4: bundle round-trip and mismatch reporting -/

theorem validSha256_ne_empty {s : String} (h : isValidSha256 (vStr s) = true) :
    s ≠ "" := by
  intro he
  subst he
  exact absurd h (by decide)

theorem verify_roundtrip (pr : JsPrims) (bt ver ca c : String) (seedv : JsVal)
    (vs : JsList) (more : JsFields)
    (hbt : bt ≠ "") (hver : ver ≠ "") (hca : ca ≠ "") (hc : c ≠ "")
    (hseed : isNullish seedv = false)
    (hihok : isValidSha256 (vStr (computeInputHash pr (mkSnapshot c seedv vs more))) = true)
    (hchok : isValidSha256 (vStr (computeCertificateHash pr (vStr bt) (vStr ver) (vStr ca)
      (mkSnapshot c seedv vs more))) = true) :
    verifyBundle pr (mkBundle bt ver ca (mkSnapshot c seedv vs more)
      (fcons "inputHash" (vStr (computeInputHash pr (mkSnapshot c seedv vs more)))
        (fcons "certificateHash" (vStr (computeCertificateHash pr (vStr bt) (vStr ver)
          (vStr ca) (mkSnapshot c seedv vs more))) fnil))) =
      ⟨true, [], [],
        some (computeCertificateHash pr (vStr bt) (vStr ver) (vStr ca)
          (mkSnapshot c seedv vs more)),
        some (computeInputHash pr (mkSnapshot c seedv vs more))⟩ := by
  have h1 := validSha256_ne_empty hihok
  have h2 := validSha256_ne_empty hchok
  simp only [mkSnapshot] at hihok hchok h1 h2
  simp [verifyBundle, mkBundle, mkSnapshot, jsGet, lookupField, truthy, isStringV,
    isObjectTypeV, isUndefV, isArrayV, jsStrEq, jsAsString,
    hbt, hver, hca, hc, hseed, hihok, hchok, h1, h2, VerifyResult.ofErrors]

theorem verify_input_mismatch (pr : JsPrims) (bt ver ca c s : String) (seedv : JsVal)
    (vs : JsList) (more : JsFields)
    (hbt : bt ≠ "") (hver : ver ≠ "") (hca : ca ≠ "") (hc : c ≠ "")
    (hseed : isNullish seedv = false)
    (hsok : isValidSha256 (vStr s) = true)
    (hne : s ≠ computeInputHash pr (mkSnapshot c seedv vs more)) :
    verifyBundle pr (mkBundle bt ver ca (mkSnapshot c seedv vs more)
      (fcons "inputHash" (vStr s) fnil)) =
      ⟨false, ["Hash mismatch"],
        [⟨"inputHash", s, computeInputHash pr (mkSnapshot c seedv vs more)⟩],
        none, none⟩ := by
  have h1 := validSha256_ne_empty hsok
  simp only [mkSnapshot] at hne
  simp [verifyBundle, mkBundle, mkSnapshot, jsGet, lookupField, truthy, isStringV,
    isObjectTypeV, isUndefV, isArrayV, jsStrEq, jsAsString,
    hbt, hver, hca, hc, hseed, hsok, h1, hne, VerifyResult.ofErrors]

theorem verify_cert_mismatch (pr : JsPrims) (bt ver ca c t : String) (seedv : JsVal)
    (vs : JsList) (more : JsFields)
    (hbt : bt ≠ "") (hver : ver ≠ "") (hca : ca ≠ "") (hc : c ≠ "")
    (hseed : isNullish seedv = false)
    (htok : isValidSha256 (vStr t) = true)
    (hne : t ≠ computeCertificateHash pr (vStr bt) (vStr ver) (vStr ca)
      (mkSnapshot c seedv vs more)) :
    verifyBundle pr (mkBundle bt ver ca (mkSnapshot c seedv vs more)
      (fcons "certificateHash" (vStr t) fnil)) =
      ⟨false, ["Hash mismatch"],
        [⟨"certificateHash", t, computeCertificateHash pr (vStr bt) (vStr ver) (vStr ca)
          (mkSnapshot c seedv vs more)⟩],
        none, none⟩ := by
  have h1 := validSha256_ne_empty htok
  simp only [mkSnapshot] at hne
  simp [verifyBundle, mkBundle, mkSnapshot, jsGet, lookupField, truthy, isStringV,
    isObjectTypeV, isUndefV, isArrayV, jsStrEq, jsAsString,
    hbt, hver, hca, hc, hseed, htok, h1, hne, VerifyResult.ofErrors]

theorem verify_both_mismatch (pr : JsPrims) (bt ver ca c s t : String) (seedv : JsVal)
    (vs : JsList) (more : JsFields)
    (hbt : bt ≠ "") (hver : ver ≠ "") (hca : ca ≠ "") (hc : c ≠ "")
    (hseed : isNullish seedv = false)
    (hsok : isValidSha256 (vStr s) = true)
    (htok : isValidSha256 (vStr t) = true)
    (hnei : s ≠ computeInputHash pr (mkSnapshot c seedv vs more))
    (hnec : t ≠ computeCertificateHash pr (vStr bt) (vStr ver) (vStr ca)
      (mkSnapshot c seedv vs more)) :
    verifyBundle pr (mkBundle bt ver ca (mkSnapshot c seedv vs more)
      (fcons "inputHash" (vStr s) (fcons "certificateHash" (vStr t) fnil))) =
      ⟨false, ["Hash mismatch"],
        [⟨"inputHash", s, computeInputHash pr (mkSnapshot c seedv vs more)⟩,
         ⟨"certificateHash", t, computeCertificateHash pr (vStr bt) (vStr ver) (vStr ca)
           (mkSnapshot c seedv vs more)⟩],
        none, none⟩ := by
  have h1 := validSha256_ne_empty hsok
  have h2 := validSha256_ne_empty htok
  simp only [mkSnapshot] at hnei hnec
  simp [verifyBundle, mkBundle, mkSnapshot, jsGet, lookupField, truthy, isStringV,
    isObjectTypeV, isUndefV, isArrayV, jsStrEq, jsAsString,
    hbt, hver, hca, hc, hseed, hsok, htok, h1, h2, hnei, hnec, VerifyResult.ofErrors]

/-- C4: for a field-valid snapshot and bundle, supplying
`inputHash = computeInputHash(snapshot)` and
`certificateHash = computeCertificateHash(bundle fields)` verifies
(`valid:true`); a well-formed caller-supplied hash that differs from the
recomputed value yields `valid:false` with a `mismatches` entry
`{field, expected, computed}` naming exactly that field; and when both
hashes differ, both entries are present (input first, certificate
second). -/
theorem claim_C4 (pr : JsPrims) (bt ver ca c : String) (seedv : JsVal)
    (vs : JsList) (more : JsFields)
    (hbt : bt ≠ "") (hver : ver ≠ "") (hca : ca ≠ "") (hc : c ≠ "")
    (hseed : isNullish seedv = false) :
    (∀ hihok : isValidSha256 (vStr (computeInputHash pr (mkSnapshot c seedv vs more))) = true,
     ∀ hchok : isValidSha256 (vStr (computeCertificateHash pr (vStr bt) (vStr ver) (vStr ca)
        (mkSnapshot c seedv vs more))) = true,
      (verifyBundle pr (mkBundle bt ver ca (mkSnapshot c seedv vs more)
        (fcons "inputHash" (vStr (computeInputHash pr (mkSnapshot c seedv vs more)))
          (fcons "certificateHash" (vStr (computeCertificateHash pr (vStr bt) (vStr ver)
            (vStr ca) (mkSnapshot c seedv vs more))) fnil)))).valid = true) ∧
    (∀ s : String, isValidSha256 (vStr s) = true →
      s ≠ computeInputHash pr (mkSnapshot c seedv vs more) →
      verifyBundle pr (mkBundle bt ver ca (mkSnapshot c seedv vs more)
        (fcons "inputHash" (vStr s) fnil)) =
        ⟨false, ["Hash mismatch"],
          [⟨"inputHash", s, computeInputHash pr (mkSnapshot c seedv vs more)⟩],
          none, none⟩) ∧
    (∀ t : String, isValidSha256 (vStr t) = true →
      t ≠ computeCertificateHash pr (vStr bt) (vStr ver) (vStr ca)
        (mkSnapshot c seedv vs more) →
      verifyBundle pr (mkBundle bt ver ca (mkSnapshot c seedv vs more)
        (fcons "certificateHash" (vStr t) fnil)) =
        ⟨false, ["Hash mismatch"],
          [⟨"certificateHash", t, computeCertificateHash pr (vStr bt) (vStr ver) (vStr ca)
            (mkSnapshot c seedv vs more)⟩],
          none, none⟩) ∧
    (∀ s t : String, isValidSha256 (vStr s) = true → isValidSha256 (vStr t) = true →
      s ≠ computeInputHash pr (mkSnapshot c seedv vs more) →
      t ≠ computeCertificateHash pr (vStr bt) (vStr ver) (vStr ca)
        (mkSnapshot c seedv vs more) →
      verifyBundle pr (mkBundle bt ver ca (mkSnapshot c seedv vs more)
        (fcons "inputHash" (vStr s) (fcons "certificateHash" (vStr t) fnil))) =
        ⟨false, ["Hash mismatch"],
          [⟨"inputHash", s, computeInputHash pr (mkSnapshot c seedv vs more)⟩,
           ⟨"certificateHash", t, computeCertificateHash pr (vStr bt) (vStr ver) (vStr ca)
             (mkSnapshot c seedv vs more)⟩],
          none, none⟩) :=
  ⟨fun hihok hchok => by
      rw [verify_roundtrip pr bt ver ca c seedv vs more hbt hver hca hc hseed hihok hchok],
   fun s hsok hne =>
     verify_input_mismatch pr bt ver ca c s seedv vs more hbt hver hca hc hseed hsok hne,
   fun t htok hne =>
     verify_cert_mismatch pr bt ver ca c t seedv vs more hbt hver hca hc hseed htok hne,
   fun s t hsok htok hnei hnec =>
     verify_both_mismatch pr bt ver ca c s t seedv vs more hbt hver hca hc hseed hsok htok
       hnei hnec⟩

/-- Witness for C4 at a concrete bundle: the round trip verifies, and each
tampered-hash variant yields exactly the expected mismatch entries. -/
theorem claim_C4_witness :
    (verifyBundle prC (mkBundle "cer.codemode.v1" "1.0.0" "2025-01-01T00:00:00.000Z"
      (mkSnapshot "code" (vNum (fin 1)) lnil fnil)
      (fcons "inputHash"
        (vStr (computeInputHash prC (mkSnapshot "code" (vNum (fin 1)) lnil fnil)))
        (fcons "certificateHash"
          (vStr (computeCertificateHash prC (vStr "cer.codemode.v1") (vStr "1.0.0")
            (vStr "2025-01-01T00:00:00.000Z") (mkSnapshot "code" (vNum (fin 1)) lnil fnil)))
          fnil)))).valid = true ∧
    verifyBundle prC (mkBundle "cer.codemode.v1" "1.0.0" "2025-01-01T00:00:00.000Z"
      (mkSnapshot "code" (vNum (fin 1)) lnil fnil)
      (fcons "inputHash" (vStr (String.mk (List.replicate 64 'b'))) fnil)) =
      ⟨false, ["Hash mismatch"],
        [⟨"inputHash", String.mk (List.replicate 64 'b'),
          computeInputHash prC (mkSnapshot "code" (vNum (fin 1)) lnil fnil)⟩],
        none, none⟩ ∧
    verifyBundle prC (mkBundle "cer.codemode.v1" "1.0.0" "2025-01-01T00:00:00.000Z"
      (mkSnapshot "code" (vNum (fin 1)) lnil fnil)
      (fcons "certificateHash" (vStr (String.mk (List.replicate 64 'b'))) fnil)) =
      ⟨false, ["Hash mismatch"],
        [⟨"certificateHash", String.mk (List.replicate 64 'b'),
          computeCertificateHash prC (vStr "cer.codemode.v1") (vStr "1.0.0")
            (vStr "2025-01-01T00:00:00.000Z") (mkSnapshot "code" (vNum (fin 1)) lnil fnil)⟩],
        none, none⟩ ∧
    verifyBundle prC (mkBundle "cer.codemode.v1" "1.0.0" "2025-01-01T00:00:00.000Z"
      (mkSnapshot "code" (vNum (fin 1)) lnil fnil)
      (fcons "inputHash" (vStr (String.mk (List.replicate 64 'b')))
        (fcons "certificateHash" (vStr (String.mk (List.replicate 64 'c'))) fnil))) =
      ⟨false, ["Hash mismatch"],
        [⟨"inputHash", String.mk (List.replicate 64 'b'),
          computeInputHash prC (mkSnapshot "code" (vNum (fin 1)) lnil fnil)⟩,
         ⟨"certificateHash", String.mk (List.replicate 64 'c'),
          computeCertificateHash prC (vStr "cer.codemode.v1") (vStr "1.0.0")
            (vStr "2025-01-01T00:00:00.000Z") (mkSnapshot "code" (vNum (fin 1)) lnil fnil)⟩],
        none, none⟩ :=
  ⟨(claim_C4 prC "cer.codemode.v1" "1.0.0" "2025-01-01T00:00:00.000Z" "code"
      (vNum (fin 1)) lnil fnil (by decide) (by decide) (by decide) (by decide) rfl).1
      (by decide) (by decide),
   (claim_C4 prC "cer.codemode.v1" "1.0.0" "2025-01-01T00:00:00.000Z" "code"
      (vNum (fin 1)) lnil fnil (by decide) (by decide) (by decide) (by decide) rfl).2.1
      (String.mk (List.replicate 64 'b')) (by decide) (by decide),
   (claim_C4 prC "cer.codemode.v1" "1.0.0" "2025-01-01T00:00:00.000Z" "code"
      (vNum (fin 1)) lnil fnil (by decide) (by decide) (by decide) (by decide) rfl).2.2.1
      (String.mk (List.replicate 64 'b')) (by decide) (by decide),
   (claim_C4 prC "cer.codemode.v1" "1.0.0" "2025-01-01T00:00:00.000Z" "code"
      (vNum (fin 1)) lnil fnil (by decide) (by decide) (by decide) (by decide) rfl).2.2.2
      (String.mk (List.replicate 64 'b')) (String.mk (List.replicate 64 'c'))
      (by decide) (by decide) (by decide) (by decide)⟩

/-! ### C1: what the certificate hash actually covers -/

theorem collectMembers_of_lookup_none (pr : JsPrims) :
    ∀ (P : List String) (r : List (String × Option String)),
      (∀ k ∈ P, List.lookup k r = none) → collectMembers pr P r = []
  | [], _, _ => rfl
  | k :: ks, r, h => by
    have h0 := h k (List.mem_cons_self k ks)
    simp only [collectMembers, h0]
    exact collectMembers_of_lookup_none pr ks r (fun k' hk' => h k' (List.mem_cons_of_mem _ hk'))

theorem lookup_eq_none_of_not_mem_fst {β : Type} (k : String) :
    ∀ r : List (String × β), ¬ k ∈ r.map Prod.fst → List.lookup k r = none := by
  intro r
  induction r with
  | nil => intro _; rfl
  | cons x rest ih =>
    obtain ⟨k', v⟩ := x
    intro h
    simp only [List.map_cons, List.mem_cons, not_or] at h
    have hb : (k == k') = false := by simp [h.1]
    simp [List.lookup_cons, hb, ih h.2]

theorem stringifyFieldsWith_map_fst (pr : JsPrims) (P : List String) :
    ∀ fs : JsFields, (stringifyFieldsWith pr P fs).map Prod.fst = fieldKeys fs
  | fnil => rfl
  | fcons k v fs => congrArg (List.cons k) (stringifyFieldsWith_map_fst pr P fs)

theorem lookup_stringifyFields_none (pr : JsPrims) (P : List String) (k : String)
    (fs : JsFields) (h : ¬ k ∈ fieldKeys fs) :
    List.lookup k (stringifyFieldsWith pr P fs) = none :=
  lookup_eq_none_of_not_mem_fst k _
    (by rw [stringifyFieldsWith_map_fst]; exact h)

/-- Under an array replacer whose property list avoids every key of `fs`,
the object `fs` serializes as the empty object. -/
theorem stringifyWith_obj_disjoint (pr : JsPrims) (P : List String) (fs : JsFields)
    (h : ∀ k ∈ P, ¬ k ∈ fieldKeys fs) :
    stringifyWith pr P (vObj fs) = "\x7b\x7d" := by
  have : collectMembers pr P (stringifyFieldsWith pr P fs) = [] :=
    collectMembers_of_lookup_none pr P _
      (fun k hk => lookup_stringifyFields_none pr P k fs (h k hk))
  simp [stringifyWith, this, joinComma]

/-- C1 (amended): `computeCertificateHash` hashes
`JSON.stringify({bundleType, createdAt, snapshot, version},
Object.keys(…).sort())`, and the array replacer filters keys at every
nesting level, so a snapshot whose keys (`code`, `seed`, `vars`, …) avoid
the four top-level names serializes as the empty object: two CodeMode
bundles that differ only in snapshot content canonicalize to the same
bytes and receive the same certificate hash, for every digest function. -/
theorem claim_C1 (pr : JsPrims) (bts cas vers : String) (sf1 sf2 : JsFields)
    (h1 : ∀ k ∈ fieldKeys sf1, ¬ k ∈ (["bundleType", "createdAt", "snapshot", "version"] : List String))
    (h2 : ∀ k ∈ fieldKeys sf2, ¬ k ∈ (["bundleType", "createdAt", "snapshot", "version"] : List String)) :
    canonicalJsonObj pr (certPayloadFields (vStr bts) (vStr cas) (vObj sf1) (vStr vers)) =
      canonicalJsonObj pr (certPayloadFields (vStr bts) (vStr cas) (vObj sf2) (vStr vers)) ∧
    computeCertificateHash pr (vStr bts) (vStr vers) (vStr cas) (vObj sf1) =
      computeCertificateHash pr (vStr bts) (vStr vers) (vStr cas) (vObj sf2) := by
  have hP : sortKeys (fieldKeys (certPayloadFields (vStr bts) (vStr cas) (vObj sf1) (vStr vers))) =
      ["bundleType", "createdAt", "snapshot", "version"] := rfl
  have hcol1 : stringifyWith pr ["bundleType", "createdAt", "snapshot", "version"] (vObj sf1) = "\x7b\x7d" :=
    stringifyWith_obj_disjoint pr _ sf1 (fun k hk hmem => h1 k hmem hk)
  have hcol2 : stringifyWith pr ["bundleType", "createdAt", "snapshot", "version"] (vObj sf2) = "\x7b\x7d" :=
    stringifyWith_obj_disjoint pr _ sf2 (fun k hk hmem => h2 k hmem hk)
  have hbytes : canonicalJsonObj pr (certPayloadFields (vStr bts) (vStr cas) (vObj sf1) (vStr vers)) =
      canonicalJsonObj pr (certPayloadFields (vStr bts) (vStr cas) (vObj sf2) (vStr vers)) := by
    simp only [canonicalJsonObj, certPayloadFields]
    simp only [show sortKeys (fieldKeys (fcons "bundleType" (vStr bts)
      (fcons "createdAt" (vStr cas) (fcons "snapshot" (vObj sf1) (fcons "version" (vStr vers) fnil))))) =
        ["bundleType", "createdAt", "snapshot", "version"] from rfl,
      show sortKeys (fieldKeys (fcons "bundleType" (vStr bts)
      (fcons "createdAt" (vStr cas) (fcons "snapshot" (vObj sf2) (fcons "version" (vStr vers) fnil))))) =
        ["bundleType", "createdAt", "snapshot", "version"] from rfl]
    simp only [stringifyWith]
    simp only [stringifyFieldsWith]
    rw [hcol1, hcol2]
  exact ⟨hbytes, by simp [computeCertificateHash, hbytes]⟩

/-- Witness for C1's amended statement: two concrete bundles differing only
in `snapshot.code` produce identical canonical bytes and identical
certificate hashes. -/
theorem claim_C1_witness :
    canonicalJsonObj prC (certPayloadFields (vStr "cer.codemode.v1") (vStr "2025-01-01T00:00:00.000Z")
        (vObj snapFieldsA) (vStr "1.0.0")) =
      canonicalJsonObj prC (certPayloadFields (vStr "cer.codemode.v1") (vStr "2025-01-01T00:00:00.000Z")
        (vObj snapFieldsB) (vStr "1.0.0")) ∧
    computeCertificateHash prC (vStr "cer.codemode.v1") (vStr "1.0.0")
        (vStr "2025-01-01T00:00:00.000Z") (vObj snapFieldsA) =
      computeCertificateHash prC (vStr "cer.codemode.v1") (vStr "1.0.0")
        (vStr "2025-01-01T00:00:00.000Z") (vObj snapFieldsB) :=
  claim_C1 prC "cer.codemode.v1" "2025-01-01T00:00:00.000Z" "1.0.0" snapFieldsA snapFieldsB
    (by decide) (by decide)

/-- Counterexample to C1 as stated: at two concrete bundles that differ only
in snapshot content, `computeCertificateHash` (src/attest.js) produces the
same hash and `canonicalJson` the same bytes, although the spec-4.5
canonicalization (the recursive `canonicalize`) of the same payloads
differs - so the snapshot's nested fields do not contribute to the hashed
bytes. -/
theorem claim_C1_cex :
    computeCertificateHash prC (vStr "cer.codemode.v1") (vStr "1.0.0")
        (vStr "2025-01-01T00:00:00.000Z") (vObj snapFieldsA) =
      computeCertificateHash prC (vStr "cer.codemode.v1") (vStr "1.0.0")
        (vStr "2025-01-01T00:00:00.000Z") (vObj snapFieldsB) ∧
    canonicalJsonObj prC (certPayloadFields (vStr "cer.codemode.v1") (vStr "2025-01-01T00:00:00.000Z")
        (vObj snapFieldsA) (vStr "1.0.0")) =
      canonicalJsonObj prC (certPayloadFields (vStr "cer.codemode.v1") (vStr "2025-01-01T00:00:00.000Z")
        (vObj snapFieldsB) (vStr "1.0.0")) ∧
    (canonicalize prC (vObj (certPayloadFields (vStr "cer.codemode.v1") (vStr "2025-01-01T00:00:00.000Z")
        (vObj snapFieldsA) (vStr "1.0.0")))).toOption ≠
      (canonicalize prC (vObj (certPayloadFields (vStr "cer.codemode.v1") (vStr "2025-01-01T00:00:00.000Z")
        (vObj snapFieldsB) (vStr "1.0.0")))).toOption ∧
    (canonicalize prC (vObj (certPayloadFields (vStr "cer.codemode.v1") (vStr "2025-01-01T00:00:00.000Z")
        (vObj snapFieldsA) (vStr "1.0.0")))).toOption.isSome = true := by
  refine ⟨by decide, by decide, by decide, by decide⟩

/-! ### C2: rejection of non-finite numbers -/

theorem canonicalizeFields_map_fst (pr : JsPrims) :
    ∀ fs : JsFields, (canonicalizeFields pr fs).map Prod.fst = fieldKeys fs
  | fnil => rfl
  | fcons k v fs => congrArg (List.cons k) (canonicalizeFields_map_fst pr fs)

theorem collectEntries_error_of_mem (pr : JsPrims) (k : String) (e : String) :
    ∀ (ks : List String) (r : List (String × Option (Except String String))),
      k ∈ ks → List.lookup k r = some (some (.error e)) →
      ∃ e', collectEntries pr ks r = .error e' := by
  intro ks
  induction ks with
  | nil => intro r h; exact absurd h (List.not_mem_nil k)
  | cons k' ks ih =>
    intro r hmem hk
    rcases List.mem_cons.mp hmem with rfl | hmem'
    · simp only [collectEntries, hk]
      exact ⟨e, rfl⟩
    · simp only [collectEntries]
      rcases hl : List.lookup k' r with _ | ⟨_ | ⟨⟨e2⟩ | ⟨s2⟩⟩⟩
      · exact ih r hmem' hk
      · exact ih r hmem' hk
      · exact ⟨e2, rfl⟩
      · obtain ⟨e', he'⟩ := ih r hmem' hk
        rw [he']
        exact ⟨e', rfl⟩

mutual
theorem hasNF_canon_err (pr : JsPrims) :
    ∀ v : JsVal, wfV v = true → hasNonFiniteV v = true →
      ∃ e, canonicalize pr v = .error e
  | vNum nan, _, _ => ⟨_, rfl⟩
  | vNum (inf false), _, _ => ⟨_, rfl⟩
  | vNum (inf true), _, _ => ⟨_, rfl⟩
  | vArr xs, hwf, hnf => by
    obtain ⟨e, he⟩ := hasNF_canonList_err pr xs hwf hnf
    exact ⟨e, by simp only [canonicalize, he]⟩
  | vObj fs, hwf, hnf => by
    rw [show wfV (vObj fs) = (nodupKeys (fieldKeys fs) && wfF fs) from rfl,
      Bool.and_eq_true] at hwf
    obtain ⟨k, e, hkmem, hk⟩ := hasNF_fields_err pr fs hwf.2 hwf.1 hnf
    have hks : k ∈ sortKeys ((canonicalizeFields pr fs).map Prod.fst) := by
      rw [canonicalizeFields_map_fst]
      exact ((sortKeys_perm (fieldKeys fs)).mem_iff).mpr hkmem
    obtain ⟨e', he'⟩ := collectEntries_error_of_mem pr k e _ _ hks hk
    exact ⟨e', by simp only [canonicalize, he']⟩
theorem hasNF_canonList_err (pr : JsPrims) :
    ∀ xs : JsList, wfL xs = true → hasNonFiniteL xs = true →
      ∃ e, canonicalizeList pr xs = .error e
  | lcons x xs, hwf, hnf => by
    rw [show wfL (lcons x xs) = (wfV x && wfL xs) from rfl, Bool.and_eq_true] at hwf
    rw [show hasNonFiniteL (lcons x xs) = (hasNonFiniteV x || hasNonFiniteL xs) from rfl,
      Bool.or_eq_true] at hnf
    rcases hnf with hnf | hnf
    · obtain ⟨e, he⟩ := hasNF_canon_err pr x hwf.1 hnf
      exact ⟨e, by simp only [canonicalizeList, he]⟩
    · rcases hx : canonicalize pr x with e0 | s0
      · exact ⟨e0, by simp only [canonicalizeList, hx]⟩
      · obtain ⟨e, he⟩ := hasNF_canonList_err pr xs hwf.2 hnf
        exact ⟨e, by simp only [canonicalizeList, hx, he]⟩
theorem hasNF_fields_err (pr : JsPrims) :
    ∀ fs : JsFields, wfF fs = true → nodupKeys (fieldKeys fs) = true →
      hasNonFiniteF fs = true →
      ∃ k e, k ∈ fieldKeys fs ∧
        List.lookup k (canonicalizeFields pr fs) = some (some (.error e))
  | fcons k' v fs, hwf, hnd, hnf => by
    rw [show wfF (fcons k' v fs) = (wfV v && wfF fs) from rfl, Bool.and_eq_true] at hwf
    rw [show nodupKeys (fieldKeys (fcons k' v fs)) =
      (!(keyMem k' (fieldKeys fs)) && nodupKeys (fieldKeys fs)) from rfl,
      Bool.and_eq_true, Bool.not_eq_true'] at hnd
    rw [show hasNonFiniteF (fcons k' v fs) = (hasNonFiniteV v || hasNonFiniteF fs) from rfl,
      Bool.or_eq_true] at hnf
    rcases hnf with hnf | hnf
    · obtain ⟨e, he⟩ := hasNF_canon_err pr v hwf.1 hnf
      refine ⟨k', e, List.mem_cons_self _ _, ?_⟩
      have hvu : v ≠ vUndef := by
        intro hv
        rw [hv] at hnf
        exact absurd hnf (by decide)
      cases v with
      | vUndef => exact absurd rfl hvu
      | vNull => simp only [canonicalizeFields, List.lookup_cons, beq_self_eq_true, he]
      | vBool b => simp only [canonicalizeFields, List.lookup_cons, beq_self_eq_true, he]
      | vNum n => simp only [canonicalizeFields, List.lookup_cons, beq_self_eq_true, he]
      | vStr s => simp only [canonicalizeFields, List.lookup_cons, beq_self_eq_true, he]
      | vArr xs => simp only [canonicalizeFields, List.lookup_cons, beq_self_eq_true, he]
      | vObj gs => simp only [canonicalizeFields, List.lookup_cons, beq_self_eq_true, he]
    · obtain ⟨k, e, hkmem, hk⟩ := hasNF_fields_err pr fs hwf.2 hnd.2 hnf
      refine ⟨k, e, List.mem_cons_of_mem _ hkmem, ?_⟩
      have hkk : (k == k') = false := by
        have : ¬ k = k' := by
          intro hkeq
          subst hkeq
          exact absurd ((keyMem_iff k (fieldKeys fs)).mpr hkmem) (by simp [hnd.1])
        simp [this]
      cases v with
      | vUndef => simpa only [canonicalizeFields, List.lookup_cons, hkk] using hk
      | vNull => simpa only [canonicalizeFields, List.lookup_cons, hkk] using hk
      | vBool b => simpa only [canonicalizeFields, List.lookup_cons, hkk] using hk
      | vNum n => simpa only [canonicalizeFields, List.lookup_cons, hkk] using hk
      | vStr s => simpa only [canonicalizeFields, List.lookup_cons, hkk] using hk
      | vArr xs => simpa only [canonicalizeFields, List.lookup_cons, hkk] using hk
      | vObj gs => simpa only [canonicalizeFields, List.lookup_cons, hkk] using hk
end

/-- C2 (amended): the recursive canonicalizer (`canonicalize`, the spec-4.5
`canon`) raises an error on every well-formed value containing a non-finite
number - it never serializes it as `null` or a string.  The
`JSON.stringify`-replacer canonicalizer of `src/attest.js` does not: see
the counterexample. -/
theorem claim_C2 (pr : JsPrims) (v : JsVal) (hwf : wfV v = true)
    (hnf : hasNonFiniteV v = true) :
    ∃ e, canonicalize pr v = Except.error e :=
  hasNF_canon_err pr v hwf hnf

/-- Witness for C2's amended statement at `{x: NaN}`. -/
theorem claim_C2_witness :
    ∃ e, canonicalize prC (vObj (fcons "x" (vNum nan) fnil)) = Except.error e :=
  claim_C2 prC (vObj (fcons "x" (vNum nan) fnil)) (by decide) (by decide)

/-- Counterexample to C2 as stated: `canonicalJson` of `src/attest.js` does
not raise on `{x: NaN}` - `JSON.stringify` coerces the non-finite number
to `null`. -/
theorem claim_C2_cex :
    canonicalJson prC (vObj (fcons "x" (vNum nan) fnil)) =
      Except.ok "\x7b\"x\":null\x7d" := rfl

/-! ### C5: where the two canonicalizers agree, and where they do not -/

theorem flatPrim_canon (pr : JsPrims) (P : List String) :
    ∀ v : JsVal, flatPrim v = true →
      canonicalize pr v = Except.ok (stringifyWith pr P v)
  | vNull, _ => rfl
  | vBool b, _ => rfl
  | vNum (fin q), _ => rfl
  | vStr s, _ => rfl

theorem allFlatPrim_canonList (pr : JsPrims) (P : List String) :
    ∀ xs : JsList, allFlatPrim xs = true →
      canonicalizeList pr xs = Except.ok (stringifyListWith pr P xs)
  | lnil, _ => rfl
  | lcons x xs, h => by
    rw [show allFlatPrim (lcons x xs) = (flatPrim x && allFlatPrim xs) from rfl,
      Bool.and_eq_true] at h
    simp only [canonicalizeList, stringifyListWith, flatPrim_canon pr P x h.1,
      allFlatPrim_canonList pr P xs h.2]

theorem flatValOk_canon (pr : JsPrims) (P : List String) :
    ∀ v : JsVal, flatValOk v = true → v ≠ vUndef →
      canonicalize pr v = Except.ok (stringifyWith pr P v)
  | vNull, _, _ => rfl
  | vBool b, _, _ => rfl
  | vNum (fin q), _, _ => rfl
  | vStr s, _, _ => rfl
  | vUndef, _, h => absurd rfl h
  | vArr xs, h, _ => by
    simp only [canonicalize, stringifyWith,
      allFlatPrim_canonList pr P xs (by exact h)]

theorem flatFields_map (pr : JsPrims) (P : List String) :
    ∀ fs : JsFields, flatFieldsOk fs = true →
      canonicalizeFields pr fs =
        (stringifyFieldsWith pr P fs).map (fun kv => (kv.1, kv.2.map Except.ok))
  | fnil, _ => rfl
  | fcons k v fs, h => by
    rw [show flatFieldsOk (fcons k v fs) = (flatValOk v && flatFieldsOk fs) from rfl,
      Bool.and_eq_true] at h
    have ih := flatFields_map pr P fs h.2
    cases v with
    | vUndef => simp only [canonicalizeFields, stringifyFieldsWith, List.map_cons, ih,
        Option.map_none']
    | vNull => simp only [canonicalizeFields, stringifyFieldsWith, List.map_cons, ih,
        Option.map_some', flatValOk_canon pr P vNull h.1 (by intro hc; cases hc)]
    | vBool b => simp only [canonicalizeFields, stringifyFieldsWith, List.map_cons, ih,
        Option.map_some', flatValOk_canon pr P (vBool b) h.1 (by intro hc; cases hc)]
    | vNum n => simp only [canonicalizeFields, stringifyFieldsWith, List.map_cons, ih,
        Option.map_some', flatValOk_canon pr P (vNum n) h.1 (by intro hc; cases hc)]
    | vStr s => simp only [canonicalizeFields, stringifyFieldsWith, List.map_cons, ih,
        Option.map_some', flatValOk_canon pr P (vStr s) h.1 (by intro hc; cases hc)]
    | vArr xs => simp only [canonicalizeFields, stringifyFieldsWith, List.map_cons, ih,
        Option.map_some', flatValOk_canon pr P (vArr xs) h.1 (by intro hc; cases hc)]
    | vObj gs => exact absurd h.1 (by simp [flatValOk, flatPrim])

theorem lookup_map_snd {β γ : Type} (k : String) (f : β → γ) :
    ∀ r : List (String × β),
      List.lookup k (r.map (fun kv => (kv.1, f kv.2))) = (List.lookup k r).map f := by
  intro r
  induction r with
  | nil => rfl
  | cons x rest ih =>
    obtain ⟨k', v⟩ := x
    simp only [List.map_cons, List.lookup_cons]
    cases hk : k == k' <;> simp [ih]

theorem collectEntries_of_members (pr : JsPrims) :
    ∀ (ks : List String) (r : List (String × Option String)),
      collectEntries pr ks (r.map (fun kv => (kv.1, kv.2.map Except.ok))) =
        Except.ok (collectMembers pr ks r) := by
  intro ks
  induction ks with
  | nil => intro r; rfl
  | cons k ks ih =>
    intro r
    have hl := lookup_map_snd k
      (fun o : Option String => o.map (Except.ok : String → Except String String)) r
    simp only [collectEntries, collectMembers, hl]
    rcases List.lookup k r with _ | ⟨_ | s⟩
    · simp [ih]
    · simp [ih]
    · simp [ih]

/-- C5 (amended): the two canonicalization implementations agree exactly on
flat data - objects whose field values are `null`, booleans, finite
numbers, strings, `undefined`, or arrays of such primitives.  (On nested
objects, non-finite numbers, and `undefined` array elements they diverge:
see the counterexample.) -/
theorem claim_C5 (pr : JsPrims) (fs : JsFields) (hflat : flatFieldsOk fs = true) :
    canonicalJson pr (vObj fs) = canonicalize pr (vObj fs) := by
  have hmap := flatFields_map pr (sortKeys (fieldKeys fs)) fs hflat
  have hfst : (canonicalizeFields pr fs).map Prod.fst = fieldKeys fs :=
    canonicalizeFields_map_fst pr fs
  simp only [canonicalJson, objectKeys, canonicalize, hfst, hmap,
    collectEntries_of_members pr, stringifyWith]
  rw [List.map_map]
  have hcomp : (Prod.fst ∘ fun kv : String × Option String =>
      (kv.1, kv.2.map (Except.ok : String → Except String String))) = Prod.fst := rfl
  rw [hcomp, stringifyFieldsWith_map_fst]

/-- Witness for C5's amended statement at the flat object
`{b:2, a:1, s:"x", u:undefined, l:[1,null]}`. -/
theorem claim_C5_witness :
    canonicalJson prC (vObj (fcons "b" (vNum (fin 2)) (fcons "a" (vNum (fin 1))
        (fcons "s" (vStr "x") (fcons "u" vUndef
          (fcons "l" (vArr (lcons (vNum (fin 1)) (lcons vNull lnil))) fnil)))))) =
      canonicalize prC (vObj (fcons "b" (vNum (fin 2)) (fcons "a" (vNum (fin 1))
        (fcons "s" (vStr "x") (fcons "u" vUndef
          (fcons "l" (vArr (lcons (vNum (fin 1)) (lcons vNull lnil))) fnil)))))) :=
  claim_C5 prC _ (by decide)

/-- Counterexample to C5 as stated: on the nested object `{a:{b:1}}` the two
implementations both succeed but produce different bytes (`canonicalJson`
drops the nested key `b`, `canonicalize` keeps it). -/
theorem claim_C5_cex :
    canonicalJson prC (vObj (fcons "a" (vObj (fcons "b" (vNum (fin 1)) fnil)) fnil)) =
      Except.ok "\x7b\"a\":\x7b\x7d\x7d" ∧
    canonicalize prC (vObj (fcons "a" (vObj (fcons "b" (vNum (fin 1)) fnil)) fnil)) =
      Except.ok "\x7b\"a\":\x7b\"b\":1\x7d\x7d" ∧
    ("\x7b\"a\":\x7b\x7d\x7d" : String) ≠ "\x7b\"a\":\x7b\"b\":1\x7d\x7d" :=
  ⟨rfl, rfl, by decide⟩

/-! ### C9: canonicalization is key-order independent -/

theorem canonicalizeFields_cons (pr : JsPrims) (k : String) (v : JsVal) (fs : JsFields) :
    canonicalizeFields pr (fcons k v fs) = (k, canonEntry pr v) :: canonicalizeFields pr fs := by
  cases v <;> rfl

theorem stringifyFieldsWith_cons (pr : JsPrims) (P : List String) (k : String) (v : JsVal)
    (fs : JsFields) :
    stringifyFieldsWith pr P (fcons k v fs) =
      (k, strEntry pr P v) :: stringifyFieldsWith pr P fs := by
  cases v <;> rfl

theorem canonEntry_sortV (pr : JsPrims) (v : JsVal)
    (h : canonicalize pr (sortV v) = canonicalize pr v) :
    canonEntry pr (sortV v) = canonEntry pr v := by
  cases v <;> simp only [sortV, canonEntry] <;> rw [← h] <;> rfl

theorem strEntry_sortV (pr : JsPrims) (P : List String) (v : JsVal)
    (h : stringifyWith pr P (sortV v) = stringifyWith pr P v) :
    strEntry pr P (sortV v) = strEntry pr P v := by
  cases v <;> simp only [sortV, strEntry] <;> rw [← h] <;> rfl

theorem canonFields_insert (pr : JsPrims) (k : String) (v : JsVal) :
    ∀ gs : JsFields,
      (canonicalizeFields pr (insertFieldSorted k v gs)).Perm
        ((k, canonEntry pr v) :: canonicalizeFields pr gs)
  | fnil => by
    rw [show insertFieldSorted k v fnil = fcons k v fnil from rfl,
      canonicalizeFields_cons]
  | fcons k' v' gs => by
    rw [show insertFieldSorted k v (fcons k' v' gs) =
      (if keyLe k k' then fcons k v (fcons k' v' gs)
       else fcons k' v' (insertFieldSorted k v gs)) from rfl]
    by_cases hle : keyLe k k' = true
    · rw [if_pos hle, canonicalizeFields_cons]
    · rw [if_neg hle, canonicalizeFields_cons, canonicalizeFields_cons]
      exact ((canonFields_insert pr k v gs).cons _).trans
        (List.Perm.swap _ _ _)

theorem strFields_insert (pr : JsPrims) (P : List String) (k : String) (v : JsVal) :
    ∀ gs : JsFields,
      (stringifyFieldsWith pr P (insertFieldSorted k v gs)).Perm
        ((k, strEntry pr P v) :: stringifyFieldsWith pr P gs)
  | fnil => by
    rw [show insertFieldSorted k v fnil = fcons k v fnil from rfl,
      stringifyFieldsWith_cons]
  | fcons k' v' gs => by
    rw [show insertFieldSorted k v (fcons k' v' gs) =
      (if keyLe k k' then fcons k v (fcons k' v' gs)
       else fcons k' v' (insertFieldSorted k v gs)) from rfl]
    by_cases hle : keyLe k k' = true
    · rw [if_pos hle, stringifyFieldsWith_cons]
    · rw [if_neg hle, stringifyFieldsWith_cons, stringifyFieldsWith_cons]
      exact ((strFields_insert pr P k v gs).cons _).trans
        (List.Perm.swap _ _ _)

theorem collectEntries_congr_perm (pr : JsPrims) :
    ∀ (ks : List String) (r1 r2 : List (String × Option (Except String String))),
      r1.Perm r2 → (r1.map Prod.fst).Nodup →
      collectEntries pr ks r1 = collectEntries pr ks r2 := by
  intro ks
  induction ks with
  | nil => intro _ _ _ _; rfl
  | cons k ks ih =>
    intro r1 r2 hp hn
    have hlk := lookup_of_perm_nodup k r1 r2 hp hn
    simp only [collectEntries, hlk]
    rcases List.lookup k r2 with _ | ⟨_ | ⟨e | s⟩⟩ <;> simp [ih r1 r2 hp hn]

theorem collectMembers_congr_perm (pr : JsPrims) :
    ∀ (ks : List String) (r1 r2 : List (String × Option String)),
      r1.Perm r2 → (r1.map Prod.fst).Nodup →
      collectMembers pr ks r1 = collectMembers pr ks r2 := by
  intro ks
  induction ks with
  | nil => intro _ _ _ _; rfl
  | cons k ks ih =>
    intro r1 r2 hp hn
    have hlk := lookup_of_perm_nodup k r1 r2 hp hn
    simp only [collectMembers, hlk]
    rcases List.lookup k r2 with _ | ⟨_ | s⟩ <;> simp [ih r1 r2 hp hn]

mutual
theorem sortV_canon (pr : JsPrims) :
    ∀ v : JsVal, wfV v = true → canonicalize pr (sortV v) = canonicalize pr v
  | vNull, _ => rfl
  | vUndef, _ => rfl
  | vBool b, _ => rfl
  | vNum n, _ => by cases n <;> rfl
  | vStr s, _ => rfl
  | vArr xs, hwf => by
    rw [show sortV (vArr xs) = vArr (sortL xs) from rfl]
    simp only [canonicalize, sortL_canonList pr xs hwf]
  | vObj fs, hwf => by
    rw [show wfV (vObj fs) = (nodupKeys (fieldKeys fs) && wfF fs) from rfl,
      Bool.and_eq_true] at hwf
    have hperm := sortF_canonFields pr fs hwf.2
    have hnd : ((canonicalizeFields pr fs).map Prod.fst).Nodup := by
      rw [canonicalizeFields_map_fst]
      exact (nodupKeys_iff (fieldKeys fs)).mp hwf.1
    have hks : sortKeys ((canonicalizeFields pr (sortF fs)).map Prod.fst) =
        sortKeys ((canonicalizeFields pr fs).map Prod.fst) :=
      sortKeys_eq_of_perm (hperm.map Prod.fst)
    have hce : collectEntries pr (sortKeys ((canonicalizeFields pr fs).map Prod.fst))
        (canonicalizeFields pr (sortF fs)) =
        collectEntries pr (sortKeys ((canonicalizeFields pr fs).map Prod.fst))
        (canonicalizeFields pr fs) :=
      collectEntries_congr_perm pr _ _ _ hperm
        ((hperm.map Prod.fst).nodup_iff.mpr hnd)
    rw [show sortV (vObj fs) = vObj (sortF fs) from rfl]
    simp only [canonicalize, hks, hce]
theorem sortL_canonList (pr : JsPrims) :
    ∀ xs : JsList, wfL xs = true → canonicalizeList pr (sortL xs) = canonicalizeList pr xs
  | lnil, _ => rfl
  | lcons x xs, hwf => by
    rw [show wfL (lcons x xs) = (wfV x && wfL xs) from rfl, Bool.and_eq_true] at hwf
    rw [show sortL (lcons x xs) = lcons (sortV x) (sortL xs) from rfl]
    simp only [canonicalizeList, sortV_canon pr x hwf.1, sortL_canonList pr xs hwf.2]
theorem sortF_canonFields (pr : JsPrims) :
    ∀ fs : JsFields, wfF fs = true →
      (canonicalizeFields pr (sortF fs)).Perm (canonicalizeFields pr fs)
  | fnil, _ => List.Perm.refl _
  | fcons k v fs, hwf => by
    rw [show wfF (fcons k v fs) = (wfV v && wfF fs) from rfl, Bool.and_eq_true] at hwf
    rw [show sortF (fcons k v fs) = insertFieldSorted k (sortV v) (sortF fs) from rfl,
      canonicalizeFields_cons]
    refine (canonFields_insert pr k (sortV v) (sortF fs)).trans ?_
    rw [canonEntry_sortV pr v (sortV_canon pr v hwf.1)]
    exact (sortF_canonFields pr fs hwf.2).cons _
end

mutual
theorem sortV_stringify (pr : JsPrims) (P : List String) :
    ∀ v : JsVal, wfV v = true → stringifyWith pr P (sortV v) = stringifyWith pr P v
  | vNull, _ => rfl
  | vUndef, _ => rfl
  | vBool b, _ => rfl
  | vNum n, _ => by cases n <;> rfl
  | vStr s, _ => rfl
  | vArr xs, hwf => by
    rw [show sortV (vArr xs) = vArr (sortL xs) from rfl]
    simp only [stringifyWith, sortL_stringifyList pr P xs hwf]
  | vObj fs, hwf => by
    rw [show wfV (vObj fs) = (nodupKeys (fieldKeys fs) && wfF fs) from rfl,
      Bool.and_eq_true] at hwf
    have hperm := sortF_stringifyFields pr P fs hwf.2
    have hnd : ((stringifyFieldsWith pr P fs).map Prod.fst).Nodup := by
      rw [stringifyFieldsWith_map_fst]
      exact (nodupKeys_iff (fieldKeys fs)).mp hwf.1
    have hcm : collectMembers pr P (stringifyFieldsWith pr P (sortF fs)) =
        collectMembers pr P (stringifyFieldsWith pr P fs) :=
      collectMembers_congr_perm pr P _ _ hperm
        ((hperm.map Prod.fst).nodup_iff.mpr hnd)
    rw [show sortV (vObj fs) = vObj (sortF fs) from rfl]
    simp only [stringifyWith, hcm]
theorem sortL_stringifyList (pr : JsPrims) (P : List String) :
    ∀ xs : JsList, wfL xs = true →
      stringifyListWith pr P (sortL xs) = stringifyListWith pr P xs
  | lnil, _ => rfl
  | lcons x xs, hwf => by
    rw [show wfL (lcons x xs) = (wfV x && wfL xs) from rfl, Bool.and_eq_true] at hwf
    rw [show sortL (lcons x xs) = lcons (sortV x) (sortL xs) from rfl]
    simp only [stringifyListWith, sortV_stringify pr P x hwf.1,
      sortL_stringifyList pr P xs hwf.2]
theorem sortF_stringifyFields (pr : JsPrims) (P : List String) :
    ∀ fs : JsFields, wfF fs = true →
      (stringifyFieldsWith pr P (sortF fs)).Perm (stringifyFieldsWith pr P fs)
  | fnil, _ => List.Perm.refl _
  | fcons k v fs, hwf => by
    rw [show wfF (fcons k v fs) = (wfV v && wfF fs) from rfl, Bool.and_eq_true] at hwf
    rw [show sortF (fcons k v fs) = insertFieldSorted k (sortV v) (sortF fs) from rfl,
      stringifyFieldsWith_cons]
    refine (strFields_insert pr P k (sortV v) (sortF fs)).trans ?_
    rw [strEntry_sortV pr P v (sortV_stringify pr P v hwf.1)]
    exact (sortF_stringifyFields pr P fs hwf.2).cons _
end

theorem jsLength_sortL : ∀ xs : JsList, jsLength (sortL xs) = jsLength xs
  | lnil => rfl
  | lcons x xs => congrArg (· + 1) (jsLength_sortL xs)

theorem fieldKeys_sortF_perm (fs : JsFields) (hwf : wfF fs = true) :
    (fieldKeys (sortF fs)).Perm (fieldKeys fs) := by
  have h := (sortF_canonFields prC fs hwf).map Prod.fst
  rwa [canonicalizeFields_map_fst, canonicalizeFields_map_fst] at h

theorem sortV_canonicalJson (pr : JsPrims) (v : JsVal) (hwf : wfV v = true) :
    canonicalJson pr (sortV v) = canonicalJson pr v := by
  cases v with
  | vNull => rfl
  | vUndef => rfl
  | vBool b => rfl
  | vNum n => cases n <;> rfl
  | vStr s => rfl
  | vArr xs =>
    rw [show sortV (vArr xs) = vArr (sortL xs) from rfl]
    simp only [canonicalJson, objectKeys, jsLength_sortL]
    rw [show vArr (sortL xs) = sortV (vArr xs) from rfl,
      sortV_stringify pr _ (vArr xs) hwf]
  | vObj fs =>
    rw [show wfV (vObj fs) = (nodupKeys (fieldKeys fs) && wfF fs) from rfl,
      Bool.and_eq_true] at hwf
    rw [show sortV (vObj fs) = vObj (sortF fs) from rfl]
    simp only [canonicalJson, objectKeys]
    rw [sortKeys_eq_of_perm (fieldKeys_sortF_perm fs hwf.2),
      show vObj (sortF fs) = sortV (vObj fs) from rfl,
      sortV_stringify pr _ (vObj fs) (by
        rw [show wfV (vObj fs) = (nodupKeys (fieldKeys fs) && wfF fs) from rfl,
          Bool.and_eq_true]
        exact hwf)]

/-- C9: canonicalization is key-order independent.  For well-formed values
that are structurally equal up to the insertion order of object keys at any
nesting depth (their recursive key-sorts coincide), both the recursive
`canonicalize` and the `JSON.stringify`-replacer `canonicalJson` produce
identical bytes. -/
theorem claim_C9 (pr : JsPrims) (v w : JsVal) (hv : wfV v = true) (hw : wfV w = true)
    (h : sortV v = sortV w) :
    canonicalize pr v = canonicalize pr w ∧ canonicalJson pr v = canonicalJson pr w := by
  constructor
  · rw [← sortV_canon pr v hv, ← sortV_canon pr w hw, h]
  · rw [← sortV_canonicalJson pr v hv, ← sortV_canonicalJson pr w hw, h]

/-- Witness for C9 at the spec's example: `canon({a:1,b:2}) ==
canon({b:2,a:1})`, for both implementations. -/
theorem claim_C9_witness :
    canonicalize prC (vObj (fcons "a" (vNum (fin 1)) (fcons "b" (vNum (fin 2)) fnil))) =
      canonicalize prC (vObj (fcons "b" (vNum (fin 2)) (fcons "a" (vNum (fin 1)) fnil))) ∧
    canonicalJson prC (vObj (fcons "a" (vNum (fin 1)) (fcons "b" (vNum (fin 2)) fnil))) =
      canonicalJson prC (vObj (fcons "b" (vNum (fin 2)) (fcons "a" (vNum (fin 1)) fnil))) :=
  claim_C9 prC _ _ (by decide) (by decide) rfl
